import Mathlib

/-!
Verification development for the simplex lint core: a shallow embedding of
the soft parser (`lint/internal/parser`), the result model
(`lint/internal/result`), the four checkers (`lint/internal/checks`) and the
lint orchestrator (`lint/lint.go`), together with theorems about the
behaviours the specification describes.

Strings are modelled as Lean `String`/`List Char`; byte positions of the Go
code become character positions (the two agree on the ASCII patterns the
code matches).  Go's `float64` coverage percentage is modelled as an exact
rational.  Go regular expressions are embedded operationally: each concrete
pattern used by the source is implemented as a scanner with Go's
leftmost-first, greedy-with-backtracking match semantics.
-/

/-- Character class of Go's regexp `\s`, namely `[\t\n\f\r ]`. -/
def goRegexSpace (c : Char) : Bool :=
  c = ' ' || c = '\t' || c = '\n' || c = '\x0c' || c = '\r'

/-- Whitespace as trimmed by Go's `strings.TrimSpace` (ASCII part). -/
def goIsSpace (c : Char) : Bool :=
  c = ' ' || c = '\t' || c = '\n' || c = '\x0b' || c = '\x0c' || c = '\r'

/-- Trim leading and trailing whitespace from a character list. -/
def goTrimL (cs : List Char) : List Char :=
  ((cs.dropWhile goIsSpace).reverse.dropWhile goIsSpace).reverse

/-- Go `strings.TrimSpace`. -/
def goTrim (s : String) : String := ⟨goTrimL s.data⟩

/-- Split a character list on a separator character (Go `strings.Split`
with a one-character separator: `n` separators yield `n+1` pieces). -/
def splitOn1 (sep : Char) : List Char → List (List Char)
  | [] => [[]]
  | c :: rest =>
    if c = sep then [] :: splitOn1 sep rest
    else
      match splitOn1 sep rest with
      | [] => [[c]]
      | h :: t => (c :: h) :: t

/-- The lines of a string, Go `strings.Split(s, "\n")`. -/
def goLines (s : String) : List String :=
  (splitOn1 '\n' s.data).map (fun l => ⟨l⟩)

/-- Go `strings.Contains` on character lists. -/
def containsSeq (needle : List Char) : List Char → Bool
  | [] => needle.isEmpty
  | c :: rest => needle.isPrefixOf (c :: rest) || containsSeq needle rest

/-- Go `strings.HasPrefix` as used on trimmed lines. -/
def goHasPrefix (pre s : String) : Bool := pre.data.isPrefixOf s.data

/-- Go `strings.TrimPrefix`: drop `pre` when it is a prefix, else unchanged. -/
def goTrimPrefix (pre s : String) : String :=
  if pre.data.isPrefixOf s.data then ⟨s.data.drop pre.data.length⟩ else s

/-! ## Landmark scanner (`parser.findLandmarks`)

The Go pattern is `(?m)^([A-Z][A-Z_]+):\s*(.*)$`.  A match therefore starts
at a line start with an uppercase letter, continues with at least one more
uppercase letter or underscore, then a colon; `\s*` then greedily consumes
whitespace (which may cross line breaks, since `\s` matches `\n`), and
`(.*)` consumes the following newline-free run.  `FindAllStringSubmatchIndex`
resumes the scan after the end of each match. -/

/-- `[A-Z]`. -/
def isUpperAZ (c : Char) : Bool := 'A' ≤ c && c ≤ 'Z'

/-- `[A-Z_]`. -/
def isNameChar (c : Char) : Bool := isUpperAZ c || c = '_'

/-- Match `([A-Z][A-Z_]+):` at the head of the list, returning the name
characters and the remainder after the colon. -/
def matchLandmarkName : List Char → Option (List Char × List Char)
  | [] => none
  | c :: rest =>
    if isUpperAZ c then
      let run := rest.takeWhile isNameChar
      if run.length = 0 then none
      else
        match rest.drop run.length with
        | ':' :: after => some (c :: run, after)
        | _ => none
    else none

/-- One regex match of the landmark pattern: the name group, the raw `(.*)`
group, the character span `[start, stop)` and the 1-based line number of the
match start. -/
structure ScanMatch where
  name : List Char
  group : List Char
  start : Nat
  stop : Nat
  line : Nat
deriving DecidableEq, Repr

/-- Character scan implementing `FindAllStringSubmatchIndex` for the landmark
pattern.  `pos` is the offset of the head of `cs` in the whole text, `ln` the
1-based line number there, `atStart` whether that offset is a line start and
`skip` the number of characters of a previous match still to pass over. -/
def findLandmarksAux : List Char → Nat → Nat → Bool → Nat → List ScanMatch
  | [], _, _, _, _ => []
  | c :: rest, pos, ln, atStart, skip =>
    match skip with
    | k + 1 =>
      findLandmarksAux rest (pos + 1) (ln + if c = '\n' then 1 else 0) (c = '\n') k
    | 0 =>
      if atStart then
        match matchLandmarkName (c :: rest) with
        | some (nm, after) =>
          let w := after.takeWhile goRegexSpace
          let r := (after.drop w.length).takeWhile (fun ch => ch ≠ '\n')
          let consumed := nm.length + 1 + w.length + r.length
          { name := nm, group := r, start := pos, stop := pos + consumed,
            line := ln } ::
            findLandmarksAux rest (pos + 1) ln false (consumed - 1)
        | none =>
          findLandmarksAux rest (pos + 1) (ln + if c = '\n' then 1 else 0) (c = '\n') 0
      else
        findLandmarksAux rest (pos + 1) (ln + if c = '\n' then 1 else 0) (c = '\n') 0

/-- `Parser.findLandmarks`: all landmark matches of a text, in document
order, with the `(.*)` group trimmed as the Go code does. -/
def findLandmarks (s : String) : List ScanMatch :=
  findLandmarksAux s.data 0 1 true 0

/-- A parsed landmark block (`parser.Landmark`). -/
structure Landmark where
  name : String
  content : String
  line : Nat
deriving DecidableEq, Repr

/-- Content assembly of `extractLandmarkContent`: trim the same-line group
and the between-matches slice, and join them with a newline when both are
non-empty. -/
def mkLandmarkContent (grp between : List Char) : String :=
  let g := goTrimL grp
  let c := goTrimL between
  if g ≠ [] then (if c ≠ [] then ⟨g ++ '\n' :: c⟩ else ⟨g⟩) else ⟨c⟩

/-- `Parser.extractLandmarkContent`: each landmark's content runs from the
end of its match to the start of the next match (or the end of text). -/
def extractLandmarksAux (text : List Char) : List ScanMatch → List Landmark
  | [] => []
  | [m] =>
    [{ name := ⟨m.name⟩, content := mkLandmarkContent m.group (text.drop m.stop),
       line := m.line }]
  | m :: m2 :: rest =>
    { name := ⟨m.name⟩,
      content := mkLandmarkContent m.group ((text.take m2.start).drop m.stop),
      line := m.line } :: extractLandmarksAux text (m2 :: rest)

/-! ## Function signature parsing (`parseFunctionBlock`)

Go pattern: `^(\w+)\s*\(([^)]*)\)\s*(?:→|->)\s*(.+)$` (no multiline flag,
so `$` is end of string and `.` excludes `\n`). -/

/-- `\w` = `[0-9A-Za-z_]`. -/
def isWordChar (c : Char) : Bool :=
  ('a' ≤ c && c ≤ 'z') || ('A' ≤ c && c ≤ 'Z') || ('0' ≤ c && c ≤ '9') || c = '_'

/-- Split a comma-separated argument list: trim the whole group, split on
commas, trim each piece, drop empty pieces. -/
def splitInputs (args : List Char) : List String :=
  let inputStr := goTrimL args
  if inputStr = [] then []
  else
    ((splitOn1 ',' inputStr).map goTrimL).filterMap
      (fun a => if a = [] then none else some (⟨a⟩ : String))

/-- Match the function signature pattern against a (newline-free) line,
returning `(name, inputs, returnType)` on success. -/
def parseSignature (cs : List Char) : Option (String × List String × String) :=
  let nm := cs.takeWhile isWordChar
  if nm = [] then none
  else
    match (cs.drop nm.length).dropWhile goRegexSpace with
    | '(' :: r3 =>
      let args := r3.takeWhile (fun c => c ≠ ')')
      match r3.drop args.length with
      | ')' :: r4 =>
        let arrowRest : Option (List Char) :=
          match r4.dropWhile goRegexSpace with
          | '→' :: t => some t
          | '-' :: '>' :: t => some t
          | _ => none
        match arrowRest with
        | none => none
        | some r6 =>
          let r7 := r6.dropWhile goRegexSpace
          if r7 = [] then none
          else if r7.contains '\n' then none
          else some (⟨nm⟩, splitInputs args, ⟨goTrimL r7⟩)
      | _ => none
    | _ => none

/-- `parser.FunctionBlock`. -/
structure FunctionBlock where
  signature : String
  name : String
  inputs : List String
  returnType : String
  landmarks : List (String × Landmark)
  line : Nat
deriving DecidableEq, Repr

/-- `parser.ParsedSpec`. -/
structure ParsedSpec where
  functions : List FunctionBlock
  dataBlocks : List Landmark
  constraints : List Landmark
  rawText : String
  parseWarnings : List String
deriving DecidableEq, Repr

instance : Inhabited Landmark := ⟨{ name := "", content := "", line := 0 }⟩

instance : Inhabited FunctionBlock :=
  ⟨{ signature := "", name := "", inputs := [], returnType := "",
     landmarks := [], line := 0 }⟩

/-- `Parser.parseFunctionBlock`: the first line of the content is the
signature; on a pattern match split it, otherwise the whole trimmed line
becomes the name with empty inputs and return type. -/
def parseFunctionBlock (lm : Landmark) : FunctionBlock :=
  let sigLine := goTrimL (lm.content.data.takeWhile (fun c => c ≠ '\n'))
  match parseSignature sigLine with
  | some (n, ins, ret) =>
    { signature := ⟨sigLine⟩, name := n, inputs := ins, returnType := ret,
      landmarks := [], line := lm.line }
  | none =>
    { signature := ⟨sigLine⟩, name := ⟨sigLine⟩, inputs := [], returnType := "",
      landmarks := [], line := lm.line }

/-- The closed set of function-scoped landmark names
(`parser.FunctionLandmarks`). -/
def functionLandmarkNames : List String :=
  ["RULES", "DONE_WHEN", "EXAMPLES", "ERRORS", "READS", "WRITES", "TRIGGERS",
   "NOT_ALLOWED", "HANDOFF", "UNCERTAIN", "BASELINE", "EVAL", "DETERMINISM"]

/-- Go's `string(rune(n + '0'))`: the single character whose code point is
`n + 48`.  (For `n ≥ 10` this is not the decimal representation of `n`.) -/
def lineNumberChar (n : Nat) : String := ⟨[Char.ofNat (n + 48)]⟩

/-- Store a landmark in a function's landmark map (Go map assignment:
the newest binding wins; lookups read the most recent one). -/
def insertLandmark (fb : FunctionBlock) (lm : Landmark) : FunctionBlock :=
  { fb with landmarks := (lm.name, lm) :: fb.landmarks }

/-- Apply `f` to the last element of a list (the Go code mutates the block
the `currentFunction` pointer refers to, always the last one appended). -/
def updateLast (f : FunctionBlock → FunctionBlock) :
    List FunctionBlock → List FunctionBlock
  | [] => []
  | [x] => [f x]
  | x :: y :: t => x :: updateLast f (y :: t)

/-- One step of `Parser.organizeLandmarks`: the boolean records whether a
current function exists (it is then the last element of `functions`). -/
def organizeStep (st : ParsedSpec × Bool) (lm : Landmark) : ParsedSpec × Bool :=
  let spec := st.1
  let cur := st.2
  if lm.name = "FUNCTION" then
    ({ spec with functions := spec.functions ++ [parseFunctionBlock lm] }, true)
  else if lm.name = "DATA" then
    ({ spec with dataBlocks := spec.dataBlocks ++ [lm] }, false)
  else if lm.name = "CONSTRAINT" then
    ({ spec with constraints := spec.constraints ++ [lm] }, false)
  else if functionLandmarkNames.contains lm.name then
    if cur then
      ({ spec with functions := updateLast (fun fb => insertLandmark fb lm) spec.functions },
       cur)
    else
      ({ spec with parseWarnings := spec.parseWarnings ++
          ["landmark " ++ lm.name ++ " at line " ++ lineNumberChar lm.line ++
           " appears outside FUNCTION block"] }, cur)
  else
    ({ spec with parseWarnings := spec.parseWarnings ++
        ["unrecognized landmark: " ++ lm.name ++ " at line " ++
         lineNumberChar lm.line] }, cur)

/-- The empty `ParsedSpec` the parser starts from. -/
def emptySpec (s : String) : ParsedSpec :=
  { functions := [], dataBlocks := [], constraints := [], rawText := s,
    parseWarnings := [] }

/-- `Parser.Parse`: scan, slice content, organize.  Never fails. -/
def Parse (s : String) : ParsedSpec :=
  let lms := extractLandmarksAux s.data (findLandmarks s)
  (lms.foldl organizeStep (emptySpec s, false)).1

/-- `FunctionBlock.GetLandmark`. -/
def getLandmark (fb : FunctionBlock) (n : String) : Option Landmark :=
  fb.landmarks.lookup n

/-- `FunctionBlock.HasLandmark`. -/
def hasLandmark (fb : FunctionBlock) (n : String) : Bool :=
  (getLandmark fb n).isSome

/-- Landmark content, or the empty string when the landmark is absent. -/
def landmarkContent (fb : FunctionBlock) (n : String) : String :=
  ((getLandmark fb n).map Landmark.content).getD ""

/-- `FunctionBlock.GetRules`. -/
def getRules (fb : FunctionBlock) : String := landmarkContent fb "RULES"

/-- `FunctionBlock.GetExamples`. -/
def getExamples (fb : FunctionBlock) : String := landmarkContent fb "EXAMPLES"

/-- `FunctionBlock.GetBaseline`. -/
def getBaseline (fb : FunctionBlock) : String := landmarkContent fb "BASELINE"

/-- `FunctionBlock.GetEval`. -/
def getEvalContent (fb : FunctionBlock) : String := landmarkContent fb "EVAL"

/-- `FunctionBlock.GetDeterminism`. -/
def getDeterminism (fb : FunctionBlock) : String := landmarkContent fb "DETERMINISM"

/-! ## Result model (`result.go`) -/

/-- `result.LintError`. -/
structure LintError where
  code : String
  message : String
  location : String
  severity : String
  suggestion : Option String
  fixable : Bool
deriving DecidableEq, Repr

/-- `result.LintStats`; `CoveragePercent` is modelled as an exact rational. -/
structure LintStats where
  functions : Nat
  branches : Nat
  examples : Nat
  coveragePercent : ℚ
deriving DecidableEq, Repr

/-- `result.LintResult`. -/
structure LintResult where
  file : String
  valid : Bool
  errors : List LintError
  warnings : List LintError
  stats : LintStats
deriving DecidableEq, Repr

/-- `result.NewLintResult`. -/
def newLintResult (file : String) : LintResult :=
  { file := file, valid := true, errors := [], warnings := [],
    stats := { functions := 0, branches := 0, examples := 0, coveragePercent := 0 } }

/-- `LintResult.AddError`. -/
def addError (r : LintResult) (code message location : String) : LintResult :=
  { r with
    errors := r.errors ++ [{ code := code, message := message, location := location,
                             severity := "error", suggestion := none, fixable := false }],
    valid := false }

/-- `LintResult.AddErrorWithSuggestion`. -/
def addErrorWithSuggestion (r : LintResult)
    (code message location suggestion : String) (fixable : Bool) : LintResult :=
  { r with
    errors := r.errors ++ [{ code := code, message := message, location := location,
                             severity := "error", suggestion := some suggestion,
                             fixable := fixable }],
    valid := false }

/-- `LintResult.AddWarning`. -/
def addWarning (r : LintResult) (code message location : String) : LintResult :=
  { r with
    warnings := r.warnings ++ [{ code := code, message := message, location := location,
                                 severity := "warning", suggestion := none,
                                 fixable := false }] }

/-- `LintResult.AddWarningWithSuggestion`. -/
def addWarningWithSuggestion (r : LintResult)
    (code message location suggestion : String) (fixable : Bool) : LintResult :=
  { r with
    warnings := r.warnings ++ [{ code := code, message := message, location := location,
                                 severity := "warning", suggestion := some suggestion,
                                 fixable := fixable }] }

/-! ## Structural checker (`checks/structural`) -/

/-- `checks.formatFunctionLocation`. -/
def formatFunctionLocation (name : String) : String :=
  if name = "" then "FUNCTION (unnamed)" else "FUNCTION " ++ name

/-- `checks.extractTypeName`: the prefix of a DATA block's content up to the
first newline, space or tab; when that stop is at position 0 or absent, the
whole content provided it is shorter than 100 characters. -/
def extractTypeName (content : String) : String :=
  let stop := content.data.takeWhile
    (fun c => c ≠ '\n' && c ≠ ' ' && c ≠ '\t')
  if stop.length = content.data.length then
    if 0 < content.data.length && content.data.length < 100 then content else ""
  else if stop.length > 0 then ⟨stop⟩
  else if 0 < content.data.length && content.data.length < 100 then content else ""

/-- The builtin type allow-list of `checkTypeReference`. -/
def builtinTypes : List String :=
  ["string", "int", "integer", "number", "bool", "boolean", "float", "double",
   "list", "array", "map", "dict", "any", "void", "none", "null",
   "result", "output", "sum", "filtered", "valid", "issues", "timestamp", "id"]

/-- `checks.normalizeTypeName`: ASCII-lowercase, drop spaces and
underscores, then strip one leading `listof`/`arrayof`/`setof` prefix when
the result is strictly longer than the prefix. -/
def normalizeTypeName (name : String) : String :=
  let base : List Char := name.data.filterMap (fun c =>
    if 'A' ≤ c && c ≤ 'Z' then some (Char.ofNat (c.toNat + 32))
    else if c = ' ' || c = '_' then none
    else some c)
  let strip : List Char → Option (List Char) := fun pre =>
    if base.length > pre.length && pre.isPrefixOf base then
      some (base.drop pre.length)
    else none
  match strip "listof".data with
  | some t => ⟨t⟩
  | none =>
    match strip "arrayof".data with
    | some t => ⟨t⟩
    | none =>
      match strip "setof".data with
      | some t => ⟨t⟩
      | none => ⟨base⟩

/-- `checks.checkTypeReference`: warn `E006` when the normalized return type
is neither a builtin nor (normalized or raw) among the raw defined DATA type
names, and at least one DATA block exists. -/
def checkTypeReference (typeName : String) (definedTypes : List String)
    (funcName : String) (r : LintResult) (spec : ParsedSpec) : LintResult :=
  let normalized := normalizeTypeName typeName
  if builtinTypes.contains normalized then r
  else if definedTypes.contains normalized || definedTypes.contains typeName then r
  else if spec.dataBlocks.length > 0 then
    addWarning r "E006"
      ("Return type \x27" ++ typeName ++ "\x27 may reference undefined DATA type")
      (formatFunctionLocation funcName)
  else r

/-- The defined DATA type names collected by `checkDataReferences`
(in the Go code a set; membership is all that is used). -/
def definedDataTypes (spec : ParsedSpec) : List String :=
  spec.dataBlocks.filterMap (fun d =>
    let t := extractTypeName d.content
    if t ≠ "" then some t else none)

/-- Per-function body of the `checkDataReferences` loop. -/
def checkDataRefStep (spec : ParsedSpec) (r : LintResult) (fn : FunctionBlock) :
    LintResult :=
  if fn.returnType ≠ "" then
    checkTypeReference fn.returnType (definedDataTypes spec) fn.name r spec
  else r

/-- `StructuralChecker.checkDataReferences`. -/
def checkDataReferences (spec : ParsedSpec) (r : LintResult) : LintResult :=
  spec.functions.foldl (checkDataRefStep spec) r

/-- Per-function body of the `checkRequiredLandmarks` loop
(E002/E003/E004/E005). -/
def checkRequiredStep (r : LintResult) (fn : FunctionBlock) : LintResult :=
  let loc := formatFunctionLocation fn.name
  let r := if hasLandmark fn "RULES" then r
           else addError r "E002" "FUNCTION missing RULES landmark" loc
  let r := if hasLandmark fn "DONE_WHEN" then r
           else addError r "E003" "FUNCTION missing DONE_WHEN landmark" loc
  let r := if hasLandmark fn "EXAMPLES" then r
           else addError r "E004" "FUNCTION missing EXAMPLES landmark" loc
  if hasLandmark fn "ERRORS" then r
  else addErrorWithSuggestion r "E005" "FUNCTION missing ERRORS landmark" loc
    "Add ERRORS: block with at least: - any unhandled condition → fail with descriptive message"
    true

/-- `StructuralChecker.checkRequiredLandmarks`. -/
def checkRequiredLandmarks (spec : ParsedSpec) (r : LintResult) : LintResult :=
  spec.functions.foldl checkRequiredStep r

/-- `StructuralChecker.Check`: `E001` and stop when no function exists,
otherwise the required-landmark and DATA-reference checks. -/
def structuralCheck (spec : ParsedSpec) (r : LintResult) : LintResult :=
  if spec.functions.isEmpty then
    addError r "E001" "No FUNCTION block found" "spec"
  else
    checkDataReferences spec (checkRequiredLandmarks spec r)

/-! ## Complexity checker (`checks/complexity.go`)

The branch heuristic uses five Go regexps; each is embedded operationally
with Go's leftmost-first semantics: a greedy sub-pattern `[^,\n]*` followed
by an alternative makes the match extend to the *last* place the
alternative fits, and `FindAll` resumes after each match's end. -/

/-- ASCII lowercase of `strings.ToLower` restricted to the ASCII range. -/
def asciiLower (c : Char) : Char :=
  if 'A' ≤ c && c ≤ 'Z' then Char.ofNat (c.toNat + 32) else c

/-- `\b` holds before a word character when the previous character (if any)
is not a word character. -/
def boundaryOk (prev : Option Char) : Bool :=
  match prev with
  | none => true
  | some p => !isWordChar p

/-- `\bW` ending: `w` is a prefix and the following character (if any) is
not a word character. -/
def wordAt (w : List Char) (cs : List Char) : Bool :=
  w.isPrefixOf cs &&
    (match cs.drop w.length with
     | [] => true
     | d :: _ => !isWordChar d)

/-- Count non-overlapping `\bw\b` matches (for a fully word-character `w`):
`FindAllString` with boundary checks on both sides. -/
def countWordAux (w : List Char) : List Char → Option Char → Nat → Nat
  | [], _, _ => 0
  | c :: rest, prev, skip =>
    match skip with
    | k + 1 => countWordAux w rest (some c) k
    | 0 =>
      if boundaryOk prev && wordAt w (c :: rest) then
        1 + countWordAux w rest (some c) (w.length - 1)
      else
        countWordAux w rest (some c) 0

/-- Matches of `\bw\b` in `cs`. -/
def countWord (w : List Char) (cs : List Char) : Nat := countWordAux w cs none 0

/-- For a greedy `[^,\n]*` followed by one of `alts` (each a word spelled in
word characters) and a trailing `\b`: the number of characters, counted from
the start of the search region, consumed up to the end of the *last* place
an alternative fits before the first `,` or newline.  `needB` adds a `\b`
in front of the alternative; `prev` is the character just before the
region. -/
def lastAltEndAux (alts : List (List Char)) (needB : Bool) :
    List Char → Char → Nat → Option Nat → Option Nat
  | [], _, _, best => best
  | c :: rest, prev, k, best =>
    if c = ',' || c = '\n' then best
    else
      let best :=
        match alts.find? (fun a => wordAt a (c :: rest)) with
        | some a => if !needB || !isWordChar prev then some (k + a.length) else best
        | none => best
      lastAltEndAux alts needB rest c (k + 1) best

/-- `FindAllString` count for `\bif\b[^,\n]*ALT\b` where `ALT` is one of
`alts`, optionally `\b`-anchored in front (`needB`). -/
def countIfAltAux (alts : List (List Char)) (needB : Bool) :
    List Char → Option Char → Nat → Nat
  | [], _, _ => 0
  | c :: rest, prev, skip =>
    match skip with
    | k + 1 => countIfAltAux alts needB rest (some c) k
    | 0 =>
      if boundaryOk prev && wordAt ['i', 'f'] (c :: rest) then
        match lastAltEndAux alts needB (rest.drop 1) 'f' 0 none with
        | some e => 1 + countIfAltAux alts needB rest (some c) (1 + e)
        | none => countIfAltAux alts needB rest (some c) 0
      else
        countIfAltAux alts needB rest (some c) 0

/-- Matches of `branchIfOrPattern` = `\bif\b[^,\n]*\bor\b`. -/
def countIfOr (cs : List Char) : Nat := countIfAltAux [['o', 'r']] true cs none 0

/-- Matches of `branchIfElsePattern` = `\bif\b[^,\n]*(otherwise|else)\b`. -/
def countIfElse (cs : List Char) : Nat :=
  countIfAltAux ["otherwise".data, "else".data] false cs none 0

/-- `FindAllStringIndex` for `branchEitherOrPattern` =
`\beither\b[^,\n]*\bor\b`: the `(start, stop)` spans of all matches. -/
def findEitherOrAux : List Char → Option Char → Nat → Nat → List (Nat × Nat)
  | [], _, _, _ => []
  | c :: rest, prev, pos, skip =>
    match skip with
    | k + 1 => findEitherOrAux rest (some c) (pos + 1) k
    | 0 =>
      if boundaryOk prev && wordAt "either".data (c :: rest) then
        match lastAltEndAux [['o', 'r']] true (rest.drop 5) 'r' 0 none with
        | some e =>
          (pos, pos + 6 + e) :: findEitherOrAux rest (some c) (pos + 1) (5 + e)
        | none => findEitherOrAux rest (some c) (pos + 1) 0
      else
        findEitherOrAux rest (some c) (pos + 1) 0

/-- The per-line claiming loop of `CountBranches`: pair each line with
whether some either/or match starts inside it (`offset ≤ start < lineEnd`,
the Go offset bookkeeping with `offset = lineEnd + 1`). -/
def lineClaims : List (List Char) → Nat → List (Nat × Nat) → List (List Char × Bool)
  | [], _, _ => []
  | l :: rest, offset, ms =>
    let lineEnd := offset + l.length
    (l, ms.any (fun m => offset ≤ m.1 && m.1 < lineEnd)) ::
      lineClaims rest (lineEnd + 1) ms

/-- Sum of a per-line count over the lines not claimed by either/or. -/
def sumUnclaimed (f : List Char → Nat) (ls : List (List Char × Bool)) : Nat :=
  ls.foldl (fun t lc => if lc.2 then t else t + f lc.1) 0

/-- `checks.CountBranches`: the branch-counting heuristic over RULES
content. -/
def CountBranches (rulesContent : String) : Nat :=
  let content := rulesContent.data.map asciiLower
  let eMatches := findEitherOrAux content none 0 0
  let lines := lineClaims (splitOn1 '\n' content) 0 eMatches
  let ifOrCount := sumUnclaimed countIfOr lines
  let ifElseCount := sumUnclaimed countIfElse lines
  let allIfCount := sumUnclaimed (countWord ['i', 'f']) lines
  let simpleIf : Int := (allIfCount : Int) - ifOrCount - ifElseCount
  let count := eMatches.length * 2 + ifOrCount * 2 + ifElseCount * 2 +
    (if simpleIf > 0 then simpleIf.toNat else 0) +
    sumUnclaimed (countWord "when".data) lines +
    countWord "optionally".data content * 2
  if count = 0 && goTrimL rulesContent.data ≠ [] then 1 else count

/-- The dash-prefixed items of a RULES block (dash stripped, trimmed,
empties dropped). -/
def dashRuleItems (rules : String) : List String :=
  (splitOn1 '\n' rules.data).filterMap (fun l =>
    match goTrimL l with
    | '-' :: restIt =>
      let item := goTrimL restIt
      if item ≠ [] then some (⟨item⟩ : String) else none
    | _ => none)

/-- The trimmed non-empty lines of a RULES block (the fallback). -/
def nonEmptyRuleLines (rules : String) : List String :=
  (splitOn1 '\n' rules.data).filterMap (fun l =>
    let t := goTrimL l
    if t ≠ [] then some (⟨t⟩ : String) else none)

/-- `checks.ExtractRuleItems`: dash items, or all non-empty lines when
no dash item exists. -/
def ExtractRuleItems (rules : String) : List String :=
  let items := dashRuleItems rules
  if items.isEmpty then nonEmptyRuleLines rules else items

/-- `checks.CountRuleItems`. -/
def CountRuleItems (rules : String) : Nat := (ExtractRuleItems rules).length

/-- `checks.CountExamples`: lines whose trimmed text is non-empty and
starts with `(` or contains an arrow. -/
def CountExamples (examples : String) : Nat :=
  (splitOn1 '\n' examples.data).countP (fun l =>
    let t := goTrimL l
    t ≠ [] && (t.headI = '(' || containsSeq ['→'] t || containsSeq ['-', '>'] t))

/-- `checks.ComplexityConfig`. -/
structure ComplexityConfig where
  maxRules : Nat
  maxInputs : Nat
  maxRuleLength : Nat
  maxFunctions : Nat
deriving DecidableEq, Repr

/-- `checks.DefaultComplexityConfig`. -/
def defaultComplexityConfig : ComplexityConfig :=
  { maxRules := 15, maxInputs := 6, maxRuleLength := 200, maxFunctions := 10 }

/-- `ComplexityChecker.checkRulesComplexity` (error `E010`). -/
def checkRulesComplexity (cfg : ComplexityConfig) (fn : FunctionBlock)
    (r : LintResult) : LintResult :=
  let rules := getRules fn
  if rules = "" then r
  else
    let count := CountRuleItems rules
    if count > cfg.maxRules then
      addError r "E010"
        ("RULES block has " ++ toString count ++ " items (max " ++
          toString cfg.maxRules ++ ")")
        (formatFunctionLocation fn.name)
    else r

/-- `ComplexityChecker.checkInputCount` (error `E011`). -/
def checkInputCount (cfg : ComplexityConfig) (fn : FunctionBlock)
    (r : LintResult) : LintResult :=
  if fn.inputs.length > cfg.maxInputs then
    addError r "E011"
      ("FUNCTION has " ++ toString fn.inputs.length ++ " inputs (max " ++
        toString cfg.maxInputs ++ ")")
      (formatFunctionLocation fn.name)
  else r

/-- `ComplexityChecker.checkRuleLength` (warning `W010`, one per overlong
item, 1-indexed). -/
def checkRuleLength (cfg : ComplexityConfig) (fn : FunctionBlock)
    (r : LintResult) : LintResult :=
  let rules := getRules fn
  if rules = "" then r
  else
    (ExtractRuleItems rules).enum.foldl (fun r it =>
      if it.2.length > cfg.maxRuleLength then
        addWarningWithSuggestion r "W010"
          ("RULES item " ++ toString (it.1 + 1) ++ " exceeds " ++
            toString cfg.maxRuleLength ++ " characters (" ++
            toString it.2.length ++ " chars)")
          (formatFunctionLocation fn.name)
          "Consider breaking this rule into multiple simpler rules" false
      else r) r

/-- `ComplexityChecker.checkExampleCoverage` (error `E012`); skipped when
either RULES or EXAMPLES content is empty. -/
def checkExampleCoverage (fn : FunctionBlock) (r : LintResult) : LintResult :=
  let rules := getRules fn
  let examples := getExamples fn
  if rules = "" || examples = "" then r
  else
    let branchCount := CountBranches rules
    let exampleCount := CountExamples examples
    if exampleCount < branchCount then
      addError r "E012"
        ("EXAMPLES has " ++ toString exampleCount ++ " items but RULES has " ++
          toString branchCount ++ " branches (examples should cover all branches)")
        (formatFunctionLocation fn.name)
    else r

/-- The per-function body of `ComplexityChecker.Check`. -/
def complexityFnStep (cfg : ComplexityConfig) (r : LintResult)
    (fn : FunctionBlock) : LintResult :=
  checkExampleCoverage fn
    (checkRuleLength cfg fn (checkInputCount cfg fn (checkRulesComplexity cfg fn r)))

/-- `ComplexityChecker.checkFunctionCount` (warning `W011`). -/
def checkFunctionCount (cfg : ComplexityConfig) (spec : ParsedSpec)
    (r : LintResult) : LintResult :=
  if spec.functions.length > cfg.maxFunctions then
    addWarning r "W011"
      ("Spec has " ++ toString spec.functions.length ++
        " FUNCTION blocks (consider splitting into multiple specs, max recommended: " ++
        toString cfg.maxFunctions ++ ")")
      "spec"
  else r

/-- `ComplexityChecker.Check`. -/
def complexityCheck (cfg : ComplexityConfig) (spec : ParsedSpec)
    (r : LintResult) : LintResult :=
  spec.functions.foldl (complexityFnStep cfg) (checkFunctionCount cfg spec r)

/-! ## Evolution checker (`checks/evolution.go`) -/

/-- Field scan state of `checkBaselineStructure`. -/
structure BaselineFields where
  hasReference : Bool
  hasPreserve : Bool
  hasEvolve : Bool
  preserveItems : Nat
  evolveItems : Nat
  currentField : String
deriving DecidableEq, Repr

/-- One line of the BASELINE field scan. -/
def baselineScanStep (st : BaselineFields) (l : String) : BaselineFields :=
  let t := goTrim l
  if t = "" then st
  else if goHasPrefix "reference:" t then
    { st with hasReference := true, currentField := "reference" }
  else if goHasPrefix "preserve:" t then
    { st with hasPreserve := true, currentField := "preserve" }
  else if goHasPrefix "evolve:" t then
    { st with hasEvolve := true, currentField := "evolve" }
  else if goHasPrefix "-" t then
    if st.currentField = "preserve" then
      { st with preserveItems := st.preserveItems + 1 }
    else if st.currentField = "evolve" then
      { st with evolveItems := st.evolveItems + 1 }
    else st
  else st

/-- The BASELINE field scan over the content's lines. -/
def scanBaseline (content : String) : BaselineFields :=
  (goLines content).foldl baselineScanStep
    { hasReference := false, hasPreserve := false, hasEvolve := false,
      preserveItems := 0, evolveItems := 0, currentField := "" }

/-- `EvolutionChecker.checkBaselineStructure`
(errors `E050`-`E054`). -/
def checkBaselineStructure (fn : FunctionBlock) (r : LintResult) : LintResult :=
  let f := scanBaseline (getBaseline fn)
  let loc := formatFunctionLocation fn.name ++ " BASELINE"
  let r := if f.hasReference then r
           else addError r "E050" "BASELINE requires reference field" loc
  let r :=
    if f.hasPreserve then
      if f.preserveItems = 0 then
        addError r "E053" "BASELINE preserve must contain at least one item" loc
      else r
    else addError r "E051" "BASELINE requires preserve field" loc
  if f.hasEvolve then
    if f.evolveItems = 0 then
      addError r "E054" "BASELINE evolve must contain at least one item" loc
    else r
  else addError r "E052" "BASELINE requires evolve field" loc

/-- Field scan state of `checkEvalStructure`. -/
structure EvalFields where
  preserveThreshold : String
  evolveThreshold : String
  grading : String
deriving DecidableEq, Repr

/-- One line of the EVAL field scan. -/
def evalScanStep (st : EvalFields) (l : String) : EvalFields :=
  let t := goTrim l
  if t = "" then st
  else if goHasPrefix "preserve:" t then
    { st with preserveThreshold := goTrim (goTrimPrefix "preserve:" t) }
  else if goHasPrefix "evolve:" t then
    { st with evolveThreshold := goTrim (goTrimPrefix "evolve:" t) }
  else if goHasPrefix "grading:" t then
    { st with grading := goTrim (goTrimPrefix "grading:" t) }
  else st

/-- The EVAL field scan over the content's lines. -/
def scanEval (content : String) : EvalFields :=
  (goLines content).foldl evalScanStep
    { preserveThreshold := "", evolveThreshold := "", grading := "" }

/-- The anchored pattern `^pass<sep>(\d+)$` of the evolution checker. -/
def passNotation (sep : Char) (s : String) : Bool :=
  ('p' :: 'a' :: 's' :: 's' :: [sep]).isPrefixOf s.data &&
    (let d := s.data.drop 5
     d ≠ [] && d.all (fun c => '0' ≤ c && c ≤ '9'))

/-- `EvolutionChecker.checkEvalStructure` (errors `E061`-`E065`). -/
def checkEvalStructure (fn : FunctionBlock) (r : LintResult) : LintResult :=
  let f := scanEval (getEvalContent fn)
  let loc := formatFunctionLocation fn.name ++ " EVAL"
  let hasBaseline := hasLandmark fn "BASELINE"
  let r :=
    if hasBaseline then
      let r := if f.preserveThreshold = "" then
          addError r "E061" "EVAL requires preserve threshold when BASELINE present" loc
        else r
      if f.evolveThreshold = "" then
        addError r "E062" "EVAL requires evolve threshold when BASELINE present" loc
      else r
    else r
  let r :=
    if f.preserveThreshold ≠ "" && !passNotation '^' f.preserveThreshold then
      addError r "E063"
        ("preserve threshold must use pass^k notation, got: " ++ f.preserveThreshold) loc
    else r
  let r :=
    if f.evolveThreshold ≠ "" && !passNotation '@' f.evolveThreshold then
      addError r "E064"
        ("evolve threshold must use pass@k notation, got: " ++ f.evolveThreshold) loc
    else r
  if f.grading ≠ "" && !(["code", "model", "outcome"].contains f.grading) then
    addError r "E065" ("grading must be code, model, or outcome, got: " ++ f.grading) loc
  else r

/-- `EvolutionChecker.checkBaselineEvalPair` (error `E060`). -/
def checkBaselineEvalPair (fn : FunctionBlock) (r : LintResult) : LintResult :=
  if hasLandmark fn "BASELINE" && !hasLandmark fn "EVAL" then
    addErrorWithSuggestion r "E060" "EVAL required when BASELINE present"
      (formatFunctionLocation fn.name)
      "Add EVAL: block with preserve and evolve thresholds (e.g., preserve: pass^3, evolve: pass@5)"
      true
  else r

/-- Per-function body of `EvolutionChecker.Check`. -/
def evolutionFnStep (r : LintResult) (fn : FunctionBlock) : LintResult :=
  let r := checkBaselineEvalPair fn r
  let r := if hasLandmark fn "BASELINE" then checkBaselineStructure fn r else r
  if hasLandmark fn "EVAL" then checkEvalStructure fn r else r

/-- `EvolutionChecker.Check`. -/
def evolutionCheck (spec : ParsedSpec) (r : LintResult) : LintResult :=
  spec.functions.foldl evolutionFnStep r

/-! ## Determinism checker (`checks/determinism.go`) -/

/-- Field scan state of `checkDeterminismStructure`. -/
structure DeterminismFields where
  level : String
  seed : String
  hasVary : Bool
  hasStable : Bool
deriving DecidableEq, Repr

/-- One line of the DETERMINISM field scan. -/
def determinismScanStep (st : DeterminismFields) (l : String) : DeterminismFields :=
  let t := goTrim l
  if t = "" then st
  else if goHasPrefix "level:" t then
    { st with level := goTrim (goTrimPrefix "level:" t) }
  else if goHasPrefix "seed:" t then
    { st with seed := goTrim (goTrimPrefix "seed:" t) }
  else if goHasPrefix "vary:" t then { st with hasVary := true }
  else if goHasPrefix "stable:" t then { st with hasStable := true }
  else st

/-- The DETERMINISM field scan over the content's lines. -/
def scanDeterminism (content : String) : DeterminismFields :=
  (goLines content).foldl determinismScanStep
    { level := "", seed := "", hasVary := false, hasStable := false }

/-- `DeterminismChecker.checkDeterminismStructure` (error `E070`). -/
def checkDeterminismStructure (fn : FunctionBlock) (r : LintResult) : LintResult :=
  let f := scanDeterminism (getDeterminism fn)
  let loc := formatFunctionLocation fn.name ++ " DETERMINISM"
  if f.level = "" then
    addError r "E070" "DETERMINISM requires level field (strict, structural, or semantic)" loc
  else if !(["strict", "structural", "semantic"].contains f.level) then
    addError r "E070"
      ("DETERMINISM level must be strict, structural, or semantic, got: " ++ f.level) loc
  else r

/-- Per-function body of `DeterminismChecker.Check`. -/
def determinismFnStep (r : LintResult) (fn : FunctionBlock) : LintResult :=
  if hasLandmark fn "DETERMINISM" then checkDeterminismStructure fn r else r

/-- `DeterminismChecker.Check`. -/
def determinismCheck (spec : ParsedSpec) (r : LintResult) : LintResult :=
  spec.functions.foldl determinismFnStep r

/-! ## Lint orchestrator (`lint.go`) -/

/-- `Linter.countTotalExamples`. -/
def countTotalExamples (spec : ParsedSpec) : Nat :=
  spec.functions.foldl (fun t fn =>
    if getExamples fn ≠ "" then t + CountExamples (getExamples fn) else t) 0

/-- `Linter.countTotalBranches`. -/
def countTotalBranches (spec : ParsedSpec) : Nat :=
  spec.functions.foldl (fun t fn =>
    if getRules fn ≠ "" then t + CountBranches (getRules fn) else t) 0

/-- `Linter.Lint`: parse, report parse warnings as `W001`, run the four
checkers in order, then fill in the stats (coverage only when branches are
positive; otherwise the field keeps its prior value, zero). -/
def lintWith (cfg : ComplexityConfig) (name content : String) : LintResult :=
  let spec := Parse content
  let r := newLintResult name
  let r := spec.parseWarnings.foldl (fun r w => addWarning r "W001" w "parse") r
  let r := structuralCheck spec r
  let r := complexityCheck cfg spec r
  let r := evolutionCheck spec r
  let r := determinismCheck spec r
  let ex := countTotalExamples spec
  let br := countTotalBranches spec
  { r with stats :=
      { functions := spec.functions.length, examples := ex, branches := br,
        coveragePercent :=
          if br > 0 then (ex : ℚ) / (br : ℚ) * 100 else r.stats.coveragePercent } }

/-- `lint.LintString`: lint with the default configuration. -/
def LintString (content : String) : LintResult :=
  lintWith defaultComplexityConfig "input" content

/-! ## Effect characterization of the checkers

Every checker only ever appends to `errors`/`warnings` (clearing `valid` on
error appends) and leaves the other fields alone.  `OpDiff g es ws` states
that `g` appends exactly `es` and `ws`; it composes along the sequential
structure of the Go code. -/

/-- The error record built by `AddError`. -/
def mkErr (c m l : String) : LintError :=
  { code := c, message := m, location := l, severity := "error",
    suggestion := none, fixable := false }

/-- The error record built by `AddErrorWithSuggestion`. -/
def mkErrS (c m l s : String) (f : Bool) : LintError :=
  { code := c, message := m, location := l, severity := "error",
    suggestion := some s, fixable := f }

/-- The warning record built by `AddWarning`. -/
def mkWarn (c m l : String) : LintError :=
  { code := c, message := m, location := l, severity := "warning",
    suggestion := none, fixable := false }

/-- The warning record built by `AddWarningWithSuggestion`. -/
def mkWarnS (c m l s : String) (f : Bool) : LintError :=
  { code := c, message := m, location := l, severity := "warning",
    suggestion := some s, fixable := f }

/-- `g` appends exactly `es` to the errors and `ws` to the warnings of any
result, invalidating it exactly when `es` is non-empty. -/
def OpDiff (g : LintResult → LintResult) (es ws : List LintError) : Prop :=
  ∀ r, g r = { r with errors := r.errors ++ es, warnings := r.warnings ++ ws,
                      valid := r.valid && es.isEmpty }

/-- The `E002`-`E005` errors of one function. -/
def reqErrorsFn (fn : FunctionBlock) : List LintError :=
  let loc := formatFunctionLocation fn.name
  (if hasLandmark fn "RULES" then []
   else [mkErr "E002" "FUNCTION missing RULES landmark" loc]) ++
  (if hasLandmark fn "DONE_WHEN" then []
   else [mkErr "E003" "FUNCTION missing DONE_WHEN landmark" loc]) ++
  (if hasLandmark fn "EXAMPLES" then []
   else [mkErr "E004" "FUNCTION missing EXAMPLES landmark" loc]) ++
  (if hasLandmark fn "ERRORS" then []
   else [mkErrS "E005" "FUNCTION missing ERRORS landmark" loc
      "Add ERRORS: block with at least: - any unhandled condition → fail with descriptive message"
      true])

/-- The `E006` warning of one function (empty when no warning applies). -/
def e006Fn (spec : ParsedSpec) (fn : FunctionBlock) : List LintError :=
  if fn.returnType ≠ "" then
    if builtinTypes.contains (normalizeTypeName fn.returnType) then []
    else if (definedDataTypes spec).contains (normalizeTypeName fn.returnType) ||
        (definedDataTypes spec).contains fn.returnType then []
    else if spec.dataBlocks.length > 0 then
      [mkWarn "E006"
        ("Return type \x27" ++ fn.returnType ++ "\x27 may reference undefined DATA type")
        (formatFunctionLocation fn.name)]
    else []
  else []

/-- Errors appended by the structural checker. -/
def structuralErrors (spec : ParsedSpec) : List LintError :=
  if spec.functions.isEmpty then [mkErr "E001" "No FUNCTION block found" "spec"]
  else spec.functions.flatMap reqErrorsFn

/-- Warnings appended by the structural checker. -/
def structuralWarnings (spec : ParsedSpec) : List LintError :=
  if spec.functions.isEmpty then [] else spec.functions.flatMap (e006Fn spec)

/-- The `E010` error of one function. -/
def e010Fn (cfg : ComplexityConfig) (fn : FunctionBlock) : List LintError :=
  if getRules fn = "" then []
  else if CountRuleItems (getRules fn) > cfg.maxRules then
    [mkErr "E010"
      ("RULES block has " ++ toString (CountRuleItems (getRules fn)) ++
        " items (max " ++ toString cfg.maxRules ++ ")")
      (formatFunctionLocation fn.name)]
  else []

/-- The `E011` error of one function. -/
def e011Fn (cfg : ComplexityConfig) (fn : FunctionBlock) : List LintError :=
  if fn.inputs.length > cfg.maxInputs then
    [mkErr "E011"
      ("FUNCTION has " ++ toString fn.inputs.length ++ " inputs (max " ++
        toString cfg.maxInputs ++ ")")
      (formatFunctionLocation fn.name)]
  else []

/-- The `W010` warnings of one function. -/
def w010Fn (cfg : ComplexityConfig) (fn : FunctionBlock) : List LintError :=
  if getRules fn = "" then []
  else
    (ExtractRuleItems (getRules fn)).enum.flatMap (fun it =>
      if it.2.length > cfg.maxRuleLength then
        [mkWarnS "W010"
          ("RULES item " ++ toString (it.1 + 1) ++ " exceeds " ++
            toString cfg.maxRuleLength ++ " characters (" ++
            toString it.2.length ++ " chars)")
          (formatFunctionLocation fn.name)
          "Consider breaking this rule into multiple simpler rules" false]
      else [])

/-- The `E012` error of one function. -/
def e012Fn (fn : FunctionBlock) : List LintError :=
  if getRules fn = "" || getExamples fn = "" then []
  else if CountExamples (getExamples fn) < CountBranches (getRules fn) then
    [mkErr "E012"
      ("EXAMPLES has " ++ toString (CountExamples (getExamples fn)) ++
        " items but RULES has " ++ toString (CountBranches (getRules fn)) ++
        " branches (examples should cover all branches)")
      (formatFunctionLocation fn.name)]
  else []

/-- The `W011` warning of the function-count check. -/
def w011Spec (cfg : ComplexityConfig) (spec : ParsedSpec) : List LintError :=
  if spec.functions.length > cfg.maxFunctions then
    [mkWarn "W011"
      ("Spec has " ++ toString spec.functions.length ++
        " FUNCTION blocks (consider splitting into multiple specs, max recommended: " ++
        toString cfg.maxFunctions ++ ")")
      "spec"]
  else []

/-- Errors appended by the complexity checker. -/
def complexityErrors (cfg : ComplexityConfig) (spec : ParsedSpec) : List LintError :=
  spec.functions.flatMap (fun fn => e010Fn cfg fn ++ e011Fn cfg fn ++ e012Fn fn)

/-- Warnings appended by the complexity checker. -/
def complexityWarnings (cfg : ComplexityConfig) (spec : ParsedSpec) : List LintError :=
  w011Spec cfg spec ++ spec.functions.flatMap (w010Fn cfg)

/-- The `E060` error of one function. -/
def e060Fn (fn : FunctionBlock) : List LintError :=
  if hasLandmark fn "BASELINE" && !hasLandmark fn "EVAL" then
    [mkErrS "E060" "EVAL required when BASELINE present"
      (formatFunctionLocation fn.name)
      "Add EVAL: block with preserve and evolve thresholds (e.g., preserve: pass^3, evolve: pass@5)"
      true]
  else []

/-- The `E050`-`E054` errors of one function's BASELINE block. -/
def baselineErrsFn (fn : FunctionBlock) : List LintError :=
  let f := scanBaseline (getBaseline fn)
  let loc := formatFunctionLocation fn.name ++ " BASELINE"
  (if f.hasReference then [] else [mkErr "E050" "BASELINE requires reference field" loc]) ++
  (if f.hasPreserve then
     (if f.preserveItems = 0 then
        [mkErr "E053" "BASELINE preserve must contain at least one item" loc]
      else [])
   else [mkErr "E051" "BASELINE requires preserve field" loc]) ++
  (if f.hasEvolve then
     (if f.evolveItems = 0 then
        [mkErr "E054" "BASELINE evolve must contain at least one item" loc]
      else [])
   else [mkErr "E052" "BASELINE requires evolve field" loc])

/-- The `E061`-`E065` errors of one function's EVAL block. -/
def evalErrsFn (fn : FunctionBlock) : List LintError :=
  let f := scanEval (getEvalContent fn)
  let loc := formatFunctionLocation fn.name ++ " EVAL"
  (if hasLandmark fn "BASELINE" then
     (if f.preserveThreshold = "" then
        [mkErr "E061" "EVAL requires preserve threshold when BASELINE present" loc]
      else []) ++
     (if f.evolveThreshold = "" then
        [mkErr "E062" "EVAL requires evolve threshold when BASELINE present" loc]
      else [])
   else []) ++
  (if f.preserveThreshold ≠ "" && !passNotation '^' f.preserveThreshold then
     [mkErr "E063"
       ("preserve threshold must use pass^k notation, got: " ++ f.preserveThreshold) loc]
   else []) ++
  (if f.evolveThreshold ≠ "" && !passNotation '@' f.evolveThreshold then
     [mkErr "E064"
       ("evolve threshold must use pass@k notation, got: " ++ f.evolveThreshold) loc]
   else []) ++
  (if f.grading ≠ "" && !(["code", "model", "outcome"].contains f.grading) then
     [mkErr "E065" ("grading must be code, model, or outcome, got: " ++ f.grading) loc]
   else [])

/-- Errors appended by the evolution checker. -/
def evolutionErrors (spec : ParsedSpec) : List LintError :=
  spec.functions.flatMap (fun fn =>
    e060Fn fn ++
    (if hasLandmark fn "BASELINE" then baselineErrsFn fn else []) ++
    (if hasLandmark fn "EVAL" then evalErrsFn fn else []))

/-- The `E070` errors of one function's DETERMINISM block. -/
def e070Fn (fn : FunctionBlock) : List LintError :=
  if hasLandmark fn "DETERMINISM" then
    let f := scanDeterminism (getDeterminism fn)
    let loc := formatFunctionLocation fn.name ++ " DETERMINISM"
    if f.level = "" then
      [mkErr "E070" "DETERMINISM requires level field (strict, structural, or semantic)" loc]
    else if !(["strict", "structural", "semantic"].contains f.level) then
      [mkErr "E070"
        ("DETERMINISM level must be strict, structural, or semantic, got: " ++ f.level) loc]
    else []
  else []

/-- Errors appended by the determinism checker. -/
def determinismErrors (spec : ParsedSpec) : List LintError :=
  spec.functions.flatMap e070Fn

/-- The `W001` warnings produced from the parse warnings. -/
def w001List (spec : ParsedSpec) : List LintError :=
  spec.parseWarnings.map (fun w => mkWarn "W001" w "parse")

/-- All errors a lint run appends, in order. -/
def lintErrors (cfg : ComplexityConfig) (spec : ParsedSpec) : List LintError :=
  structuralErrors spec ++ complexityErrors cfg spec ++ evolutionErrors spec ++
    determinismErrors spec

/-- All warnings a lint run appends, in order. -/
def lintWarnings (cfg : ComplexityConfig) (spec : ParsedSpec) : List LintError :=
  w001List spec ++ structuralWarnings spec ++ complexityWarnings cfg spec

/-- One mutation of a `LintResult` through its four add methods. -/
inductive ResultOp where
  | err (code message location : String)
  | errS (code message location suggestion : String) (fixable : Bool)
  | warn (code message location : String)
  | warnS (code message location suggestion : String) (fixable : Bool)
deriving DecidableEq, Repr

/-- Apply one result operation. -/
def applyOp (r : LintResult) : ResultOp → LintResult
  | .err c m l => addError r c m l
  | .errS c m l s f => addErrorWithSuggestion r c m l s f
  | .warn c m l => addWarning r c m l
  | .warnS c m l s f => addWarningWithSuggestion r c m l s f

/-- Whether an operation is one of the two error-adding methods. -/
def isErrorOp : ResultOp → Bool
  | .err _ _ _ => true
  | .errS _ _ _ _ _ => true
  | .warn _ _ _ => false
  | .warnS _ _ _ _ _ => false

/-- Apply a sequence of result operations, oldest first. -/
def applyOps (r : LintResult) (ops : List ResultOp) : LintResult :=
  ops.foldl applyOp r

/-- `needle` occurs as a contiguous substring of `hay`
(Go `strings.Contains`). -/
def substringOf (needle hay : String) : Prop :=
  containsSeq needle.data hay.data = true

instance (needle hay : String) : Decidable (substringOf needle hay) := by
  unfold substringOf
  infer_instance

/-- Join lines with newlines (left inverse of `splitOn1 '\n'`). -/
def intercalNl : List (List Char) → List Char
  | [] => []
  | [l] => l
  | l :: l2 :: ls => l ++ '\n' :: intercalNl (l2 :: ls)

/-- The line-by-line reference scanner: one record per line matching the
landmark pattern, carrying the name, the trimmed same-line remainder and
the 1-based line number. -/
def refScanLines : List (List Char) → Nat → List (List Char × List Char × Nat)
  | [], _ => []
  | l :: ls, ln =>
    match matchLandmarkName l with
    | some nmrem => (nmrem.1, goTrimL nmrem.2, ln) :: refScanLines ls (ln + 1)
    | none => refScanLines ls (ln + 1)

/-- A line either declares no landmark, or its same-line remainder after
the colon contains a non-whitespace character. -/
def lineRemainderOk (l : List Char) : Bool :=
  match matchLandmarkName l with
  | some nmrem => nmrem.2.any (fun c => !goRegexSpace c)
  | none => true

theorem opDiff_id : OpDiff (fun r => r) [] [] := by
  intro r; simp

theorem opDiff_addError (c m l : String) :
    OpDiff (fun r => addError r c m l) [mkErr c m l] [] := by
  intro r; simp [addError, mkErr]

theorem opDiff_addErrorWithSuggestion (c m l s : String) (f : Bool) :
    OpDiff (fun r => addErrorWithSuggestion r c m l s f) [mkErrS c m l s f] [] := by
  intro r; simp [addErrorWithSuggestion, mkErrS]

theorem opDiff_addWarning (c m l : String) :
    OpDiff (fun r => addWarning r c m l) [] [mkWarn c m l] := by
  intro r; simp [addWarning, mkWarn]

theorem opDiff_addWarningWithSuggestion (c m l s : String) (f : Bool) :
    OpDiff (fun r => addWarningWithSuggestion r c m l s f) [] [mkWarnS c m l s f] := by
  intro r; simp [addWarningWithSuggestion, mkWarnS]

theorem opDiff_comp {g₁ g₂ : LintResult → LintResult} {es₁ ws₁ es₂ ws₂ : List LintError}
    (h₁ : OpDiff g₁ es₁ ws₁) (h₂ : OpDiff g₂ es₂ ws₂) :
    OpDiff (fun r => g₂ (g₁ r)) (es₁ ++ es₂) (ws₁ ++ ws₂) := by
  intro r
  show g₂ (g₁ r) = _
  rw [h₁ r, h₂ _]
  cases es₁ <;> cases es₂ <;> simp [List.append_assoc, List.isEmpty, Bool.and_assoc]

theorem opDiff_congr {g₁ g₂ : LintResult → LintResult} {es ws : List LintError}
    (h : OpDiff g₁ es ws) (hg : ∀ r, g₂ r = g₁ r) : OpDiff g₂ es ws := by
  intro r; rw [hg r, h r]

theorem opDiff_foldl {α : Type} (step : LintResult → α → LintResult)
    (d w : α → List LintError)
    (h : ∀ a, OpDiff (fun r => step r a) (d a) (w a)) :
    ∀ l : List α, OpDiff (fun r => l.foldl step r) (l.flatMap d) (l.flatMap w) := by
  intro l
  induction l with
  | nil => simpa using opDiff_id
  | cons a t ih =>
    have := opDiff_comp (h a) ih
    simpa [List.foldl_cons, List.flatMap_cons] using this

/-! ### Structural checker contributions -/

theorem opDiff_checkRequiredStep (fn : FunctionBlock) :
    OpDiff (fun r => checkRequiredStep r fn) (reqErrorsFn fn) [] := by
  intro r
  show checkRequiredStep r fn = _
  unfold checkRequiredStep reqErrorsFn
  split_ifs <;>
    simp_all [addError, addErrorWithSuggestion, mkErr, mkErrS]

theorem opDiff_checkTypeReference (ty : String) (dts : List String)
    (fname : String) (spec : ParsedSpec) :
    OpDiff (fun r => checkTypeReference ty dts fname r spec)
      []
      (if builtinTypes.contains (normalizeTypeName ty) then []
       else if dts.contains (normalizeTypeName ty) || dts.contains ty then []
       else if spec.dataBlocks.length > 0 then
         [mkWarn "E006"
           ("Return type \x27" ++ ty ++ "\x27 may reference undefined DATA type")
           (formatFunctionLocation fname)]
       else []) := by
  intro r
  show checkTypeReference ty dts fname r spec = _
  unfold checkTypeReference
  split_ifs <;> simp_all [addWarning, mkWarn]

theorem opDiff_checkDataRefStep (spec : ParsedSpec) (fn : FunctionBlock) :
    OpDiff (fun r => checkDataRefStep spec r fn) [] (e006Fn spec fn) := by
  intro r
  show checkDataRefStep spec r fn = _
  unfold checkDataRefStep e006Fn
  by_cases h : fn.returnType ≠ ""
  · rw [if_pos h, if_pos h]
    exact opDiff_checkTypeReference fn.returnType (definedDataTypes spec) fn.name spec r
  · rw [if_neg h, if_neg h]
    simp

theorem flatMap_nil_fun {α β : Type} (l : List α) :
    l.flatMap (fun _ => ([] : List β)) = [] := by
  induction l <;> simp_all

theorem opDiff_structuralCheck (spec : ParsedSpec) :
    OpDiff (structuralCheck spec) (structuralErrors spec) (structuralWarnings spec) := by
  intro r
  unfold structuralCheck structuralErrors structuralWarnings
  by_cases h : spec.functions.isEmpty
  · simp only [h, if_true]
    exact opDiff_addError "E001" "No FUNCTION block found" "spec" r
  · simp only [h, if_false]
    have hreq := opDiff_foldl checkRequiredStep reqErrorsFn (fun _ => [])
      opDiff_checkRequiredStep spec.functions
    have hdata := opDiff_foldl (checkDataRefStep spec) (fun _ => []) (e006Fn spec)
      (opDiff_checkDataRefStep spec) spec.functions
    have heq := opDiff_comp hreq hdata r
    simp only [flatMap_nil_fun, List.append_nil, List.nil_append] at heq
    simpa [checkRequiredLandmarks, checkDataReferences] using heq

/-! ### Complexity checker contributions -/

theorem opDiff_checkRulesComplexity (cfg : ComplexityConfig) (fn : FunctionBlock) :
    OpDiff (checkRulesComplexity cfg fn) (e010Fn cfg fn) [] := by
  intro r
  unfold checkRulesComplexity e010Fn
  split_ifs <;> simp_all [addError, mkErr]

theorem opDiff_checkInputCount (cfg : ComplexityConfig) (fn : FunctionBlock) :
    OpDiff (checkInputCount cfg fn) (e011Fn cfg fn) [] := by
  intro r
  unfold checkInputCount e011Fn
  split_ifs <;> simp_all [addError, mkErr]

theorem opDiff_checkRuleLength (cfg : ComplexityConfig) (fn : FunctionBlock) :
    OpDiff (checkRuleLength cfg fn) [] (w010Fn cfg fn) := by
  intro r
  unfold checkRuleLength w010Fn
  by_cases h : getRules fn = ""
  · rw [if_pos h, if_pos h]; simp
  · rw [if_neg h, if_neg h]
    have hstep : ∀ it : Nat × String,
        OpDiff (fun r => (fun (r : LintResult) (it : Nat × String) =>
          if it.2.length > cfg.maxRuleLength then
            addWarningWithSuggestion r "W010"
              ("RULES item " ++ toString (it.1 + 1) ++ " exceeds " ++
                toString cfg.maxRuleLength ++ " characters (" ++
                toString it.2.length ++ " chars)")
              (formatFunctionLocation fn.name)
              "Consider breaking this rule into multiple simpler rules" false
          else r) r it) []
        (if it.2.length > cfg.maxRuleLength then
          [mkWarnS "W010"
            ("RULES item " ++ toString (it.1 + 1) ++ " exceeds " ++
              toString cfg.maxRuleLength ++ " characters (" ++
              toString it.2.length ++ " chars)")
            (formatFunctionLocation fn.name)
            "Consider breaking this rule into multiple simpler rules" false]
         else []) := by
      intro it r'
      dsimp only
      by_cases hl : it.2.length > cfg.maxRuleLength
      · rw [if_pos hl, if_pos hl]
        exact opDiff_addWarningWithSuggestion _ _ _ _ _ r'
      · rw [if_neg hl, if_neg hl]; simp
    have := opDiff_foldl _ _ _ hstep (ExtractRuleItems (getRules fn)).enum r
    simpa [flatMap_nil_fun] using this

theorem opDiff_checkExampleCoverage (fn : FunctionBlock) :
    OpDiff (checkExampleCoverage fn) (e012Fn fn) [] := by
  intro r
  unfold checkExampleCoverage e012Fn
  split_ifs <;> simp_all [addError, mkErr]

theorem opDiff_checkFunctionCount (cfg : ComplexityConfig) (spec : ParsedSpec) :
    OpDiff (checkFunctionCount cfg spec) [] (w011Spec cfg spec) := by
  intro r
  unfold checkFunctionCount w011Spec
  split_ifs <;> simp_all [addWarning, mkWarn]

theorem opDiff_complexityFnStep (cfg : ComplexityConfig) (fn : FunctionBlock) :
    OpDiff (fun r => complexityFnStep cfg r fn)
      (e010Fn cfg fn ++ e011Fn cfg fn ++ e012Fn fn) (w010Fn cfg fn) := by
  have h1 := opDiff_comp (opDiff_checkRulesComplexity cfg fn) (opDiff_checkInputCount cfg fn)
  have h2 := opDiff_comp h1 (opDiff_checkRuleLength cfg fn)
  have h3 := opDiff_comp h2 (opDiff_checkExampleCoverage fn)
  refine opDiff_congr ?_ (fun r => rfl)
  simpa [complexityFnStep] using h3

theorem opDiff_complexityCheck (cfg : ComplexityConfig) (spec : ParsedSpec) :
    OpDiff (complexityCheck cfg spec) (complexityErrors cfg spec)
      (complexityWarnings cfg spec) := by
  have hloop := opDiff_foldl (complexityFnStep cfg)
    (fun fn => e010Fn cfg fn ++ e011Fn cfg fn ++ e012Fn fn) (w010Fn cfg)
    (opDiff_complexityFnStep cfg) spec.functions
  have := opDiff_comp (opDiff_checkFunctionCount cfg spec) hloop
  intro r
  have heq := this r
  simp only at heq
  simpa [complexityCheck, complexityErrors, complexityWarnings] using heq

/-! ### Evolution and determinism checker contributions -/

theorem opDiff_checkBaselineEvalPair (fn : FunctionBlock) :
    OpDiff (checkBaselineEvalPair fn) (e060Fn fn) [] := by
  intro r
  unfold checkBaselineEvalPair e060Fn
  split_ifs <;> simp_all [addErrorWithSuggestion, mkErrS]

theorem opDiff_checkBaselineStructure (fn : FunctionBlock) :
    OpDiff (checkBaselineStructure fn) (baselineErrsFn fn) [] := by
  intro r
  simp only [checkBaselineStructure, baselineErrsFn]
  split_ifs <;> simp_all [addError, mkErr]

theorem opDiff_checkEvalStructure (fn : FunctionBlock) :
    OpDiff (checkEvalStructure fn) (evalErrsFn fn) [] := by
  intro r
  simp only [checkEvalStructure, evalErrsFn]
  split_ifs <;> simp [addError, mkErr]

theorem opDiff_evolutionFnStep (fn : FunctionBlock) :
    OpDiff (fun r => evolutionFnStep r fn)
      (e060Fn fn ++
        (if hasLandmark fn "BASELINE" then baselineErrsFn fn else []) ++
        (if hasLandmark fn "EVAL" then evalErrsFn fn else [])) [] := by
  have hbase : OpDiff (fun r => if hasLandmark fn "BASELINE" then checkBaselineStructure fn r else r)
      (if hasLandmark fn "BASELINE" then baselineErrsFn fn else []) [] := by
    by_cases h : hasLandmark fn "BASELINE"
    · intro r; dsimp only; rw [if_pos h, if_pos h]; exact opDiff_checkBaselineStructure fn r
    · intro r; dsimp only; rw [if_neg h, if_neg h]; simp
  have heval : OpDiff (fun r => if hasLandmark fn "EVAL" then checkEvalStructure fn r else r)
      (if hasLandmark fn "EVAL" then evalErrsFn fn else []) [] := by
    by_cases h : hasLandmark fn "EVAL"
    · intro r; dsimp only; rw [if_pos h, if_pos h]; exact opDiff_checkEvalStructure fn r
    · intro r; dsimp only; rw [if_neg h, if_neg h]; simp
  have h1 := opDiff_comp (opDiff_checkBaselineEvalPair fn) hbase
  have h2 := opDiff_comp h1 heval
  refine opDiff_congr ?_ (fun r => rfl)
  simpa [evolutionFnStep] using h2

theorem opDiff_evolutionCheck (spec : ParsedSpec) :
    OpDiff (evolutionCheck spec) (evolutionErrors spec) [] := by
  have := opDiff_foldl evolutionFnStep
    (fun fn => e060Fn fn ++
      (if hasLandmark fn "BASELINE" then baselineErrsFn fn else []) ++
      (if hasLandmark fn "EVAL" then evalErrsFn fn else []))
    (fun _ => []) opDiff_evolutionFnStep spec.functions
  intro r
  have heq := this r
  simpa [evolutionCheck, evolutionErrors, flatMap_nil_fun] using heq

theorem opDiff_determinismFnStep (fn : FunctionBlock) :
    OpDiff (fun r => determinismFnStep r fn) (e070Fn fn) [] := by
  intro r
  show determinismFnStep r fn = _
  simp only [determinismFnStep, e070Fn, checkDeterminismStructure]
  split_ifs <;> simp [addError, mkErr]

theorem opDiff_determinismCheck (spec : ParsedSpec) :
    OpDiff (determinismCheck spec) (determinismErrors spec) [] := by
  have := opDiff_foldl determinismFnStep e070Fn (fun _ => [])
    opDiff_determinismFnStep spec.functions
  intro r
  have heq := this r
  simpa [determinismCheck, determinismErrors, flatMap_nil_fun] using heq

/-! ### Lint orchestrator characterization -/

theorem flatMap_pure {α β : Type} (f : α → β) (l : List α) :
    l.flatMap (fun a => [f a]) = l.map f := by
  induction l <;> simp_all

theorem opDiff_w001 (spec : ParsedSpec) :
    OpDiff (fun r => spec.parseWarnings.foldl (fun r w => addWarning r "W001" w "parse") r)
      [] (w001List spec) := by
  have hstep : ∀ w : String,
      OpDiff (fun r => addWarning r "W001" w "parse") [] [mkWarn "W001" w "parse"] :=
    fun w => opDiff_addWarning "W001" w "parse"
  have := opDiff_foldl (fun r w => addWarning r "W001" w "parse")
    (fun _ => []) (fun w => [mkWarn "W001" w "parse"]) hstep spec.parseWarnings
  intro r
  have heq := this r
  simpa [flatMap_nil_fun, w001List, flatMap_pure] using heq

/-- The complete characterization of `lintWith`: the result's file, errors,
warnings, validity and statistics as functions of the parsed spec. -/
theorem lintWith_eq (cfg : ComplexityConfig) (name content : String) :
    lintWith cfg name content =
      { file := name,
        valid := (lintErrors cfg (Parse content)).isEmpty,
        errors := lintErrors cfg (Parse content),
        warnings := lintWarnings cfg (Parse content),
        stats :=
          { functions := (Parse content).functions.length,
            examples := countTotalExamples (Parse content),
            branches := countTotalBranches (Parse content),
            coveragePercent :=
              if countTotalBranches (Parse content) > 0 then
                (countTotalExamples (Parse content) : ℚ) /
                  (countTotalBranches (Parse content) : ℚ) * 100
              else 0 } } := by
  have h1 := opDiff_w001 (Parse content)
  have h2 := opDiff_comp h1 (opDiff_structuralCheck (Parse content))
  have h3 := opDiff_comp h2 (opDiff_complexityCheck cfg (Parse content))
  have h4 := opDiff_comp h3 (opDiff_evolutionCheck (Parse content))
  have h5 := opDiff_comp h4 (opDiff_determinismCheck (Parse content))
  have heq := h5 (newLintResult name)
  simp only at heq
  simp only [lintWith]
  rw [heq]
  simp [newLintResult, lintErrors, lintWarnings, List.append_assoc]

/-! ## Result-model operation sequences (for the validity invariant) -/

theorem applyOp_valid (r : LintResult) (op : ResultOp) :
    (applyOp r op).valid = (r.valid && !isErrorOp op) := by
  cases op <;>
    simp [applyOp, isErrorOp, addError, addErrorWithSuggestion, addWarning,
      addWarningWithSuggestion]

theorem applyOps_valid (ops : List ResultOp) :
    ∀ r : LintResult, (applyOps r ops).valid = (r.valid && ops.all (fun op => !isErrorOp op)) := by
  induction ops with
  | nil => intro r; simp [applyOps]
  | cons op t ih =>
    intro r
    have : applyOps r (op :: t) = applyOps (applyOp r op) t := rfl
    rw [this, ih, applyOp_valid]
    simp [Bool.and_assoc]

/-- C9.  A `LintResult` is valid at creation; `addError` and
`addErrorWithSuggestion` each set `valid` to `false`; no operation ever
makes an invalid result valid again; after any operation sequence starting
from a fresh result, `valid` is `false` iff the sequence contains an
error-adding operation; and the two warning operations never change
`valid`. -/
theorem c9_valid_invariant :
    (∀ f : String, (newLintResult f).valid = true) ∧
    (∀ (r : LintResult) (c m l : String), (addError r c m l).valid = false) ∧
    (∀ (r : LintResult) (c m l s : String) (fx : Bool),
      (addErrorWithSuggestion r c m l s fx).valid = false) ∧
    (∀ (r : LintResult) (op : ResultOp), r.valid = false → (applyOp r op).valid = false) ∧
    (∀ (f : String) (ops : List ResultOp),
      ((applyOps (newLintResult f) ops).valid = false ↔ ∃ op ∈ ops, isErrorOp op = true)) ∧
    (∀ (r : LintResult) (c m l : String), (addWarning r c m l).valid = r.valid) ∧
    (∀ (r : LintResult) (c m l s : String) (fx : Bool),
      (addWarningWithSuggestion r c m l s fx).valid = r.valid) := by
  refine ⟨fun f => rfl, fun r c m l => rfl, fun r c m l s fx => rfl, ?_, ?_, ?_, ?_⟩
  · intro r op h
    rw [applyOp_valid, h, Bool.false_and]
  · intro f ops
    rw [applyOps_valid]
    simp [newLintResult, List.all_eq_true]
  · intro r c m l; simp [addWarning]
  · intro r c m l s fx; simp [addWarningWithSuggestion]

/-- Witness for C9 at a concrete operation sequence. -/
theorem c9_valid_invariant_witness :
    ((newLintResult "w").valid = true) ∧
    ((applyOp { newLintResult "w" with valid := false } (.warn "W001" "m" "l")).valid = false) ∧
    ((applyOps (newLintResult "w")
        [.warn "W001" "m" "l", .err "E001" "m" "l"]).valid = false ↔
      ∃ op ∈ [ResultOp.warn "W001" "m" "l", ResultOp.err "E001" "m" "l"],
        isErrorOp op = true) := by
  refine ⟨c9_valid_invariant.1 "w", ?_, ?_⟩
  · exact c9_valid_invariant.2.2.2.1 _ _ rfl
  · exact c9_valid_invariant.2.2.2.2.1 "w" _

/-- C3.  The branch heuristic's documented values, and `CountBranches` is a
pure function of its input string. -/
theorem c3_branch_heuristic :
    CountBranches "if A" = 1 ∧ CountBranches "if A or B" = 2 ∧
    CountBranches "either A or B" = 2 ∧ CountBranches "if A otherwise B" = 2 ∧
    (∀ s t : String, s = t → CountBranches s = CountBranches t) := by
  refine ⟨by decide, by decide, by decide, by decide, fun s t h => by rw [h]⟩

/-- Witness for C3's purity conjunct at a concrete pair of equal strings. -/
theorem c3_branch_heuristic_witness :
    ("if A" : String) = "if A" ∧ CountBranches "if A" = CountBranches "if A" :=
  ⟨rfl, c3_branch_heuristic.2.2.2.2 "if A" "if A" rfl⟩

/-! ## Statistics (C4) -/

theorem CountExamples_empty : CountExamples "" = 0 := by decide

theorem CountBranches_empty : CountBranches "" = 0 := by decide

theorem countTotalExamples_eq_sum (spec : ParsedSpec) :
    countTotalExamples spec =
      (spec.functions.map (fun fn => CountExamples (getExamples fn))).sum := by
  have key : ∀ (l : List FunctionBlock) (n : Nat),
      l.foldl (fun t fn => if getExamples fn ≠ "" then t + CountExamples (getExamples fn) else t) n =
        n + (l.map (fun fn => CountExamples (getExamples fn))).sum := by
    intro l
    induction l with
    | nil => intro n; simp
    | cons fn t ih =>
      intro n
      simp only [List.foldl_cons, List.map_cons, List.sum_cons]
      by_cases h : getExamples fn = ""
      · rw [if_neg (by simp [h]), ih, h, CountExamples_empty]
        omega
      · rw [if_pos h, ih]
        omega
  simpa [countTotalExamples] using key spec.functions 0

theorem countTotalBranches_eq_sum (spec : ParsedSpec) :
    countTotalBranches spec =
      (spec.functions.map (fun fn => CountBranches (getRules fn))).sum := by
  have key : ∀ (l : List FunctionBlock) (n : Nat),
      l.foldl (fun t fn => if getRules fn ≠ "" then t + CountBranches (getRules fn) else t) n =
        n + (l.map (fun fn => CountBranches (getRules fn))).sum := by
    intro l
    induction l with
    | nil => intro n; simp
    | cons fn t ih =>
      intro n
      simp only [List.foldl_cons, List.map_cons, List.sum_cons]
      by_cases h : getRules fn = ""
      · rw [if_neg (by simp [h]), ih, h, CountBranches_empty]
        omega
      · rw [if_pos h, ih]
        omega
  simpa [countTotalBranches] using key spec.functions 0

/-- C4.  After a lint run, `stats.functions` is the number of parsed
function blocks, `stats.examples` and `stats.branches` are the per-function
sums of the example and heuristic branch counts, and `coveragePercent` is
the raw, uncapped ratio `examples / branches * 100` when `branches > 0`
and stays `0` when `branches = 0`. -/
theorem c4_stats (cfg : ComplexityConfig) (name content : String) :
    (lintWith cfg name content).stats.functions = (Parse content).functions.length ∧
    (lintWith cfg name content).stats.examples =
      ((Parse content).functions.map (fun fn => CountExamples (getExamples fn))).sum ∧
    (lintWith cfg name content).stats.branches =
      ((Parse content).functions.map (fun fn => CountBranches (getRules fn))).sum ∧
    ((lintWith cfg name content).stats.branches > 0 →
      (lintWith cfg name content).stats.coveragePercent =
        ((lintWith cfg name content).stats.examples : ℚ) /
          ((lintWith cfg name content).stats.branches : ℚ) * 100) ∧
    ((lintWith cfg name content).stats.branches = 0 →
      (lintWith cfg name content).stats.coveragePercent = 0) := by
  rw [lintWith_eq]
  refine ⟨rfl, countTotalExamples_eq_sum _, countTotalBranches_eq_sum _, ?_, ?_⟩
  · intro h
    simp only at h ⊢
    rw [if_pos h]
  · intro h
    simp only at h ⊢
    rw [h]
    simp

/-- Witness for C4 at a concrete spec with 5 examples and 1 heuristic
branch: the coverage is the raw 500 %, not capped at 100. -/
theorem c4_stats_witness :
    (lintWith defaultComplexityConfig "input"
        "FUNCTION: f(a) → result\nRULES:\n  - do it\nDONE_WHEN:\n  - ok\nEXAMPLES:\n  (1) -> 1\n  (2) -> 2\n  (3) -> 3\n  (4) -> 4\n  (5) -> 5\nERRORS:\n  - fail").stats.branches > 0 ∧
    (lintWith defaultComplexityConfig "input"
        "FUNCTION: f(a) → result\nRULES:\n  - do it\nDONE_WHEN:\n  - ok\nEXAMPLES:\n  (1) -> 1\n  (2) -> 2\n  (3) -> 3\n  (4) -> 4\n  (5) -> 5\nERRORS:\n  - fail").stats.coveragePercent = 500 := by
  refine ⟨by decide, ?_⟩
  have h := (c4_stats defaultComplexityConfig "input"
    "FUNCTION: f(a) → result\nRULES:\n  - do it\nDONE_WHEN:\n  - ok\nEXAMPLES:\n  (1) -> 1\n  (2) -> 2\n  (3) -> 3\n  (4) -> 4\n  (5) -> 5\nERRORS:\n  - fail").2.2.2.1 (by decide)
  rw [h]
  norm_num [show (lintWith defaultComplexityConfig "input"
    "FUNCTION: f(a) → result\nRULES:\n  - do it\nDONE_WHEN:\n  - ok\nEXAMPLES:\n  (1) -> 1\n  (2) -> 2\n  (3) -> 3\n  (4) -> 4\n  (5) -> 5\nERRORS:\n  - fail").stats.examples = 5 from by decide,
    show (lintWith defaultComplexityConfig "input"
    "FUNCTION: f(a) → result\nRULES:\n  - do it\nDONE_WHEN:\n  - ok\nEXAMPLES:\n  (1) -> 1\n  (2) -> 2\n  (3) -> 3\n  (4) -> 4\n  (5) -> 5\nERRORS:\n  - fail").stats.branches = 1 from by decide]

/-! ## Error-code classification of the checker contributions -/

theorem code_of_reqErrorsFn {e : LintError} {fn : FunctionBlock}
    (h : e ∈ reqErrorsFn fn) :
    e.code = "E002" ∨ e.code = "E003" ∨ e.code = "E004" ∨ e.code = "E005" := by
  simp only [reqErrorsFn, List.mem_append] at h
  rcases h with (((h | h) | h) | h) <;> split_ifs at h <;> simp_all [mkErr, mkErrS]

theorem code_of_structuralErrors {e : LintError} {spec : ParsedSpec}
    (h : e ∈ structuralErrors spec) :
    e.code = "E001" ∨ e.code = "E002" ∨ e.code = "E003" ∨ e.code = "E004" ∨
      e.code = "E005" := by
  unfold structuralErrors at h
  split_ifs at h
  · simp_all [mkErr]
  · rw [List.mem_flatMap] at h
    obtain ⟨fn, _, hfn⟩ := h
    rcases code_of_reqErrorsFn hfn with h | h | h | h <;> simp [h]

theorem code_of_e010Fn {e : LintError} {cfg : ComplexityConfig} {fn : FunctionBlock}
    (h : e ∈ e010Fn cfg fn) : e.code = "E010" := by
  unfold e010Fn at h
  split_ifs at h <;> simp_all [mkErr]

theorem code_of_e011Fn {e : LintError} {cfg : ComplexityConfig} {fn : FunctionBlock}
    (h : e ∈ e011Fn cfg fn) : e.code = "E011" := by
  unfold e011Fn at h
  split_ifs at h <;> simp_all [mkErr]

theorem code_of_e012Fn {e : LintError} {fn : FunctionBlock}
    (h : e ∈ e012Fn fn) : e.code = "E012" := by
  unfold e012Fn at h
  split_ifs at h <;> simp_all [mkErr]

theorem code_of_complexityErrors {e : LintError} {cfg : ComplexityConfig}
    {spec : ParsedSpec} (h : e ∈ complexityErrors cfg spec) :
    e.code = "E010" ∨ e.code = "E011" ∨ e.code = "E012" := by
  unfold complexityErrors at h
  rw [List.mem_flatMap] at h
  obtain ⟨fn, _, hfn⟩ := h
  simp only [List.mem_append] at hfn
  rcases hfn with (h | h) | h
  · exact Or.inl (code_of_e010Fn h)
  · exact Or.inr (Or.inl (code_of_e011Fn h))
  · exact Or.inr (Or.inr (code_of_e012Fn h))

theorem code_of_evolutionErrors {e : LintError} {spec : ParsedSpec}
    (h : e ∈ evolutionErrors spec) :
    e.code = "E050" ∨ e.code = "E051" ∨ e.code = "E052" ∨ e.code = "E053" ∨
      e.code = "E054" ∨ e.code = "E060" ∨ e.code = "E061" ∨ e.code = "E062" ∨
      e.code = "E063" ∨ e.code = "E064" ∨ e.code = "E065" := by
  unfold evolutionErrors at h
  rw [List.mem_flatMap] at h
  obtain ⟨fn, _, hfn⟩ := h
  simp only [List.mem_append] at hfn
  rcases hfn with (h | h) | h
  · unfold e060Fn at h
    split_ifs at h <;> simp_all [mkErrS]
  · split_ifs at h
    · simp only [baselineErrsFn] at h
      split_ifs at h <;> (try simp_all [mkErr]) <;> aesop
    · simp at h
  · split_ifs at h
    · simp only [evalErrsFn] at h
      split_ifs at h <;> (try simp_all [mkErr]) <;> aesop
    · simp at h

theorem code_of_determinismErrors {e : LintError} {spec : ParsedSpec}
    (h : e ∈ determinismErrors spec) : e.code = "E070" := by
  unfold determinismErrors at h
  rw [List.mem_flatMap] at h
  obtain ⟨fn, _, hfn⟩ := h
  simp only [e070Fn] at hfn
  split_ifs at hfn <;> simp_all [mkErr]

theorem severity_of_lintWarnings {w : LintError} {cfg : ComplexityConfig}
    {spec : ParsedSpec} (h : w ∈ lintWarnings cfg spec) :
    w.severity = "warning" := by
  unfold lintWarnings at h
  simp only [List.mem_append] at h
  rcases h with (h | h) | h
  · unfold w001List at h
    rw [List.mem_map] at h
    obtain ⟨_, _, rfl⟩ := h
    rfl
  · unfold structuralWarnings at h
    split_ifs at h
    · simp at h
    · rw [List.mem_flatMap] at h
      obtain ⟨fn, _, hfn⟩ := h
      unfold e006Fn at hfn
      split_ifs at hfn <;> simp_all [mkWarn]
  · unfold complexityWarnings at h
    simp only [List.mem_append] at h
    rcases h with h | h
    · unfold w011Spec at h
      split_ifs at h <;> simp_all [mkWarn]
    · rw [List.mem_flatMap] at h
      obtain ⟨fn, _, hfn⟩ := h
      unfold w010Fn at hfn
      split_ifs at hfn
      · simp at hfn
      · rw [List.mem_flatMap] at hfn
        obtain ⟨it, _, hit⟩ := hfn
        split_ifs at hit <;> simp_all [mkWarnS]

/-- C10.  An `E006` finding never reaches the errors list: every lint error
has a different code, every warning coded `E006` carries severity
`"warning"`, and a run whose errors list is empty is still valid. -/
theorem c10_e006_is_warning (cfg : ComplexityConfig) (name content : String) :
    (∀ e ∈ (lintWith cfg name content).errors, e.code ≠ "E006") ∧
    (∀ w ∈ (lintWith cfg name content).warnings,
      w.code = "E006" → w.severity = "warning") ∧
    ((lintWith cfg name content).errors = [] →
      (lintWith cfg name content).valid = true) := by
  rw [lintWith_eq]
  refine ⟨?_, ?_, ?_⟩
  · intro e he
    simp only [lintErrors, List.mem_append] at he
    rcases he with ((he | he) | he) | he
    · rcases code_of_structuralErrors he with h | h | h | h | h <;> simp [h]
    · rcases code_of_complexityErrors he with h | h | h <;> simp [h]
    · rcases code_of_evolutionErrors he with
        h | h | h | h | h | h | h | h | h | h | h <;> simp [h]
    · have := code_of_determinismErrors he
      simp [this]
  · intro w hw _
    exact severity_of_lintWarnings hw
  · intro h
    simp only at h ⊢
    simp [h]

/-- Witness for C10: a spec whose only finding is `E006` — the errors list
is empty, the sole warning is the `E006`, and the result stays valid. -/
theorem c10_e006_is_warning_witness :
    (lintWith defaultComplexityConfig "input"
        "DATA: Foo\n  x: string\n\nFUNCTION: f(a) → Bar\n\nRULES:\n  - do it\n\nDONE_WHEN:\n  - ok\n\nEXAMPLES:\n  (1) -> 2\n\nERRORS:\n  - fail").errors = [] ∧
    ((lintWith defaultComplexityConfig "input"
        "DATA: Foo\n  x: string\n\nFUNCTION: f(a) → Bar\n\nRULES:\n  - do it\n\nDONE_WHEN:\n  - ok\n\nEXAMPLES:\n  (1) -> 2\n\nERRORS:\n  - fail").warnings.map
        (fun w => (w.code, w.severity))) = [("E006", "warning")] ∧
    (lintWith defaultComplexityConfig "input"
        "DATA: Foo\n  x: string\n\nFUNCTION: f(a) → Bar\n\nRULES:\n  - do it\n\nDONE_WHEN:\n  - ok\n\nEXAMPLES:\n  (1) -> 2\n\nERRORS:\n  - fail").valid = true := by
  refine ⟨by decide, by decide, ?_⟩
  exact (c10_e006_is_warning defaultComplexityConfig "input"
    "DATA: Foo\n  x: string\n\nFUNCTION: f(a) → Bar\n\nRULES:\n  - do it\n\nDONE_WHEN:\n  - ok\n\nEXAMPLES:\n  (1) -> 2\n\nERRORS:\n  - fail").2.2 (by decide)

/-! ## Filtering lint errors by code (C6, C7) -/

theorem filter_code_nil {l : List LintError} {c : String}
    (h : ∀ e ∈ l, e.code ≠ c) : l.filter (fun e => e.code = c) = [] := by
  rw [List.filter_eq_nil_iff]
  intro e he
  simp [h e he]

theorem filter_code_self {l : List LintError} {c : String}
    (h : ∀ e ∈ l, e.code = c) : l.filter (fun e => e.code = c) = l := by
  rw [List.filter_eq_self]
  intro e he
  simp [h e he]

theorem filter_flatMap_list {α : Type} (l : List α) (f : α → List LintError)
    (p : LintError → Bool) :
    (l.flatMap f).filter p = l.flatMap (fun a => (f a).filter p) := by
  induction l with
  | nil => simp
  | cons a t ih => simp [List.flatMap_cons, List.filter_append, ih]

theorem filter_e012_lintErrors (cfg : ComplexityConfig) (spec : ParsedSpec) :
    (lintErrors cfg spec).filter (fun e => e.code = "E012") =
      spec.functions.flatMap e012Fn := by
  unfold lintErrors
  rw [List.filter_append, List.filter_append, List.filter_append]
  have hs : (structuralErrors spec).filter (fun e => e.code = "E012") = [] :=
    filter_code_nil (fun e he => by
      rcases code_of_structuralErrors he with h | h | h | h | h <;> simp [h])
  have hev : (evolutionErrors spec).filter (fun e => e.code = "E012") = [] :=
    filter_code_nil (fun e he => by
      rcases code_of_evolutionErrors he with h | h | h | h | h | h | h | h | h | h | h <;>
        simp [h])
  have hd : (determinismErrors spec).filter (fun e => e.code = "E012") = [] :=
    filter_code_nil (fun e he => by simp [code_of_determinismErrors he])
  rw [hs, hev, hd]
  simp only [List.nil_append, List.append_nil]
  unfold complexityErrors
  rw [filter_flatMap_list]
  congr 1
  funext fn
  rw [List.filter_append, List.filter_append]
  rw [filter_code_nil (fun e he => by simp [code_of_e010Fn he])]
  rw [filter_code_nil (fun e he => by simp [code_of_e011Fn he])]
  rw [filter_code_self (fun e he => code_of_e012Fn he)]
  simp

theorem e012Fn_eq_ite (fn : FunctionBlock) :
    e012Fn fn =
      (if getRules fn ≠ "" ∧ getExamples fn ≠ "" ∧
          CountExamples (getExamples fn) < CountBranches (getRules fn) then
        [mkErr "E012"
          ("EXAMPLES has " ++ toString (CountExamples (getExamples fn)) ++
            " items but RULES has " ++ toString (CountBranches (getRules fn)) ++
            " branches (examples should cover all branches)")
          (formatFunctionLocation fn.name)]
      else []) := by
  unfold e012Fn
  split_ifs <;> simp_all

/-- C7.  The `E012` findings of a lint run are exactly one per function
whose RULES and EXAMPLES contents are both non-empty and whose example
count is strictly below its heuristic branch count; in particular an `E012`
exists iff such a function exists. -/
theorem c7_e012_iff (cfg : ComplexityConfig) (name content : String) :
    ((lintWith cfg name content).errors.filter (fun e => e.code = "E012") =
      (Parse content).functions.flatMap (fun fn =>
        if getRules fn ≠ "" ∧ getExamples fn ≠ "" ∧
            CountExamples (getExamples fn) < CountBranches (getRules fn) then
          [mkErr "E012"
            ("EXAMPLES has " ++ toString (CountExamples (getExamples fn)) ++
              " items but RULES has " ++ toString (CountBranches (getRules fn)) ++
              " branches (examples should cover all branches)")
            (formatFunctionLocation fn.name)]
        else [])) ∧
    ((∃ e ∈ (lintWith cfg name content).errors, e.code = "E012") ↔
      ∃ fn ∈ (Parse content).functions,
        getRules fn ≠ "" ∧ getExamples fn ≠ "" ∧
          CountExamples (getExamples fn) < CountBranches (getRules fn)) := by
  have hfilter : (lintWith cfg name content).errors.filter (fun e => e.code = "E012") =
      (Parse content).functions.flatMap e012Fn := by
    rw [lintWith_eq]
    exact filter_e012_lintErrors cfg (Parse content)
  constructor
  · rw [hfilter]
    congr 1
    funext fn
    exact e012Fn_eq_ite fn
  · constructor
    · intro ⟨e, he, hcode⟩
      have hmem : e ∈ (lintWith cfg name content).errors.filter
          (fun e => e.code = "E012") := by
        rw [List.mem_filter]
        exact ⟨he, by simp [hcode]⟩
      rw [hfilter, List.mem_flatMap] at hmem
      obtain ⟨fn, hfn, hin⟩ := hmem
      rw [e012Fn_eq_ite] at hin
      split_ifs at hin with hc
      · exact ⟨fn, hfn, hc⟩
      · simp at hin
    · intro ⟨fn, hfn, hc⟩
      have hin : (mkErr "E012"
          ("EXAMPLES has " ++ toString (CountExamples (getExamples fn)) ++
            " items but RULES has " ++ toString (CountBranches (getRules fn)) ++
            " branches (examples should cover all branches)")
          (formatFunctionLocation fn.name)) ∈
          (lintWith cfg name content).errors.filter (fun e => e.code = "E012") := by
        rw [hfilter, List.mem_flatMap]
        exact ⟨fn, hfn, by rw [e012Fn_eq_ite, if_pos hc]; simp⟩
      rw [List.mem_filter] at hin
      exact ⟨_, hin.1, by simpa using hin.2⟩

/-! ## E010 boundary behaviour (C6) -/

theorem containsSeq_append (n pre post : List Char) :
    containsSeq n (pre ++ (n ++ post)) = true := by
  induction pre with
  | nil =>
    cases n with
    | nil => cases post <;> simp [containsSeq]
    | cons c t =>
      simp only [List.nil_append, List.cons_append, containsSeq, Bool.or_eq_true]
      left
      rw [List.isPrefixOf_iff_prefix]
      exact ⟨post, by simp⟩
  | cons p pre ih =>
    simp only [List.cons_append, containsSeq, Bool.or_eq_true]
    right
    exact ih

theorem filter_e010_lintErrors (cfg : ComplexityConfig) (spec : ParsedSpec) :
    (lintErrors cfg spec).filter (fun e => e.code = "E010") =
      spec.functions.flatMap (e010Fn cfg) := by
  unfold lintErrors
  rw [List.filter_append, List.filter_append, List.filter_append]
  have hs : (structuralErrors spec).filter (fun e => e.code = "E010") = [] :=
    filter_code_nil (fun e he => by
      rcases code_of_structuralErrors he with h | h | h | h | h <;> simp [h])
  have hev : (evolutionErrors spec).filter (fun e => e.code = "E010") = [] :=
    filter_code_nil (fun e he => by
      rcases code_of_evolutionErrors he with h | h | h | h | h | h | h | h | h | h | h <;>
        simp [h])
  have hd : (determinismErrors spec).filter (fun e => e.code = "E010") = [] :=
    filter_code_nil (fun e he => by simp [code_of_determinismErrors he])
  rw [hs, hev, hd]
  simp only [List.nil_append, List.append_nil]
  unfold complexityErrors
  rw [filter_flatMap_list]
  congr 1
  funext fn
  rw [List.filter_append, List.filter_append]
  have h11 : (e011Fn cfg fn).filter (fun e => e.code = "E010") = [] :=
    filter_code_nil (fun e he => by simp [code_of_e011Fn he])
  have h12 : (e012Fn fn).filter (fun e => e.code = "E010") = [] :=
    filter_code_nil (fun e he => by simp [code_of_e012Fn he])
  have h10 : (e010Fn cfg fn).filter (fun e => e.code = "E010") = e010Fn cfg fn :=
    filter_code_self (fun e he => code_of_e010Fn he)
  rw [h11, h12, h10]
  simp

theorem ExtractRuleItems_of_dash {r : String} (h : dashRuleItems r ≠ []) :
    ExtractRuleItems r = dashRuleItems r := by
  unfold ExtractRuleItems
  rw [if_neg]
  simp [List.isEmpty_iff, h]

theorem rules_ne_empty_of_dash {r : String} (h : dashRuleItems r ≠ []) :
    r ≠ "" := by
  intro he
  subst he
  exact h (by decide)

/-- C6.  For a spec with a single function: exactly `maxRules` dash items
yield no `E010`; `maxRules + 1` dash items yield exactly one `E010` whose
message contains the actual item count and the configured limit. -/
theorem c6_e010_boundary (cfg : ComplexityConfig) (name content : String)
    (fn : FunctionBlock) (hfns : (Parse content).functions = [fn])
    (hmax : 1 ≤ cfg.maxRules) :
    ((dashRuleItems (getRules fn)).length = cfg.maxRules →
      (lintWith cfg name content).errors.filter (fun e => e.code = "E010") = []) ∧
    ((dashRuleItems (getRules fn)).length = cfg.maxRules + 1 →
      (lintWith cfg name content).errors.filter (fun e => e.code = "E010") =
        [mkErr "E010"
          ("RULES block has " ++ toString (cfg.maxRules + 1) ++ " items (max " ++
            toString cfg.maxRules ++ ")")
          (formatFunctionLocation fn.name)] ∧
      substringOf (toString (cfg.maxRules + 1))
        ("RULES block has " ++ toString (cfg.maxRules + 1) ++ " items (max " ++
          toString cfg.maxRules ++ ")") ∧
      substringOf (toString cfg.maxRules)
        ("RULES block has " ++ toString (cfg.maxRules + 1) ++ " items (max " ++
          toString cfg.maxRules ++ ")")) := by
  have hfilter : (lintWith cfg name content).errors.filter (fun e => e.code = "E010") =
      e010Fn cfg fn := by
    rw [lintWith_eq]
    simp only
    rw [filter_e010_lintErrors, hfns]
    simp
  constructor
  · intro hlen
    rw [hfilter]
    have hdash : dashRuleItems (getRules fn) ≠ [] := by
      intro h0
      rw [h0] at hlen
      simp at hlen
      omega
    unfold e010Fn
    rw [if_neg (rules_ne_empty_of_dash hdash)]
    rw [if_neg]
    unfold CountRuleItems
    rw [ExtractRuleItems_of_dash hdash, hlen]
    omega
  · intro hlen
    have hdash : dashRuleItems (getRules fn) ≠ [] := by
      intro h0
      rw [h0] at hlen
      simp at hlen
    have hcount : CountRuleItems (getRules fn) = cfg.maxRules + 1 := by
      unfold CountRuleItems
      rw [ExtractRuleItems_of_dash hdash, hlen]
    refine ⟨?_, ?_, ?_⟩
    · rw [hfilter]
      unfold e010Fn
      rw [if_neg (rules_ne_empty_of_dash hdash)]
      rw [if_pos (by rw [hcount]; omega), hcount]
    · have := containsSeq_append (toString (cfg.maxRules + 1)).data
        "RULES block has ".data
        (" items (max " ++ toString cfg.maxRules ++ ")").data
      simpa [substringOf, List.append_assoc] using this
    · have := containsSeq_append (toString cfg.maxRules).data
        ("RULES block has " ++ toString (cfg.maxRules + 1) ++ " items (max ").data
        ")".data
      simpa [substringOf, List.append_assoc] using this

set_option maxRecDepth 40000 in
/-- Witness for C6 at a concrete single-function spec with 16 dash items
under the default limit 15: exactly one `E010`, whose message contains
"16" and "15". -/
theorem c6_e010_boundary_witness :
    (lintWith defaultComplexityConfig "input"
        "FUNCTION: f(a) -> result\nRULES:\n  - r00\n  - r01\n  - r02\n  - r03\n  - r04\n  - r05\n  - r06\n  - r07\n  - r08\n  - r09\n  - r10\n  - r11\n  - r12\n  - r13\n  - r14\n  - r15\nDONE_WHEN:\n  - ok\nEXAMPLES:\n  (1) -> 1\nERRORS:\n  - fail").errors.filter
        (fun e => e.code = "E010") =
      [mkErr "E010" "RULES block has 16 items (max 15)" "FUNCTION f"] ∧
    substringOf "16" "RULES block has 16 items (max 15)" ∧
    substringOf "15" "RULES block has 16 items (max 15)" := by
  have h := (c6_e010_boundary defaultComplexityConfig "input"
    "FUNCTION: f(a) -> result\nRULES:\n  - r00\n  - r01\n  - r02\n  - r03\n  - r04\n  - r05\n  - r06\n  - r07\n  - r08\n  - r09\n  - r10\n  - r11\n  - r12\n  - r13\n  - r14\n  - r15\nDONE_WHEN:\n  - ok\nEXAMPLES:\n  (1) -> 1\nERRORS:\n  - fail"
    ((Parse "FUNCTION: f(a) -> result\nRULES:\n  - r00\n  - r01\n  - r02\n  - r03\n  - r04\n  - r05\n  - r06\n  - r07\n  - r08\n  - r09\n  - r10\n  - r11\n  - r12\n  - r13\n  - r14\n  - r15\nDONE_WHEN:\n  - ok\nEXAMPLES:\n  (1) -> 1\nERRORS:\n  - fail").functions.headI)
    (by decide) (by decide)).2 (by decide)
  exact ⟨by
    have := h.1
    convert this using 2, h.2.1, h.2.2⟩

/-! ## E006 return-type comparison (C5) -/

/-- Counterexample to C5 as stated: the spec defines `DATA: UserRecord` and
the function returns `user_record`; the two names normalize identically
(`userrecord`), yet an `E006` warning is still emitted, because the code
compares the normalized return type against the *raw* extracted DATA type
names, never against their normalized forms. -/
theorem c5_counterexample :
    ((Parse "DATA: UserRecord\n  name: string\n\nFUNCTION: load(id) → user_record\nRULES:\n  - load the record\nDONE_WHEN:\n  - record loaded\nEXAMPLES:\n  (1) → record\nERRORS:\n  - fail").dataBlocks.map
        (fun d => normalizeTypeName (extractTypeName d.content)) =
      [normalizeTypeName "user_record"]) ∧
    ((Parse "DATA: UserRecord\n  name: string\n\nFUNCTION: load(id) → user_record\nRULES:\n  - load the record\nDONE_WHEN:\n  - record loaded\nEXAMPLES:\n  (1) → record\nERRORS:\n  - fail").functions.map
        FunctionBlock.returnType = ["user_record"]) ∧
    (LintString "DATA: UserRecord\n  name: string\n\nFUNCTION: load(id) → user_record\nRULES:\n  - load the record\nDONE_WHEN:\n  - record loaded\nEXAMPLES:\n  (1) → record\nERRORS:\n  - fail").warnings.filter
        (fun e => e.code = "E006") ≠ [] := by
  refine ⟨by decide, by decide, by decide⟩

theorem e006Fn_eq_ite (spec : ParsedSpec) (fn : FunctionBlock) :
    e006Fn spec fn =
      (if fn.returnType ≠ "" ∧ spec.dataBlocks ≠ [] ∧
          ¬(builtinTypes.contains (normalizeTypeName fn.returnType) = true ∨
            (definedDataTypes spec).contains (normalizeTypeName fn.returnType) = true ∨
            (definedDataTypes spec).contains fn.returnType = true) then
        [mkWarn "E006"
          ("Return type \x27" ++ fn.returnType ++ "\x27 may reference undefined DATA type")
          (formatFunctionLocation fn.name)]
      else []) := by
  unfold e006Fn
  split_ifs with h1 h2 h3 h4 h5 <;>
    simp_all [List.length_pos]

/-- C5 (amended).  With at least one function: an `E006` warning is emitted
exactly once per function whose non-empty return type, after
normalization, is neither a builtin nor found among the *raw* extracted
DATA type names (the raw return type is also tried against the raw names),
provided at least one DATA block exists; with zero DATA blocks no `E006`
is ever emitted. -/
theorem c5_e006_raw_names (spec : ParsedSpec) (r : LintResult) :
    (spec.functions ≠ [] →
      (structuralCheck spec r).warnings = r.warnings ++
        spec.functions.flatMap (fun fn =>
          if fn.returnType ≠ "" ∧ spec.dataBlocks ≠ [] ∧
              ¬(builtinTypes.contains (normalizeTypeName fn.returnType) = true ∨
                (definedDataTypes spec).contains (normalizeTypeName fn.returnType) = true ∨
                (definedDataTypes spec).contains fn.returnType = true) then
            [mkWarn "E006"
              ("Return type \x27" ++ fn.returnType ++ "\x27 may reference undefined DATA type")
              (formatFunctionLocation fn.name)]
          else [])) ∧
    (spec.dataBlocks = [] → (structuralCheck spec r).warnings = r.warnings) := by
  have hw : (structuralCheck spec r).warnings = r.warnings ++ structuralWarnings spec := by
    rw [opDiff_structuralCheck spec r]
  constructor
  · intro hfns
    rw [hw]
    congr 1
    unfold structuralWarnings
    rw [if_neg (by simp [List.isEmpty_iff, hfns])]
    congr 1
    funext fn
    exact e006Fn_eq_ite spec fn
  · intro hdata
    rw [hw]
    have : structuralWarnings spec = [] := by
      unfold structuralWarnings
      split_ifs with h
      · rfl
      · have : ∀ fn, e006Fn spec fn = [] := by
          intro fn
          rw [e006Fn_eq_ite]
          rw [if_neg]
          simp [hdata]
        calc spec.functions.flatMap (e006Fn spec)
            = spec.functions.flatMap (fun _ => []) := by
              apply List.flatMap_congr  -- may need adjusting
              intro fn _
              exact this fn
          _ = [] := flatMap_nil_fun spec.functions
    rw [this, List.append_nil]

set_option maxRecDepth 40000 in
/-- Witness for C5 (amended) at two concrete specs: with a DATA block whose
raw name differs from the normalized return type the single `E006` warning
is emitted; with zero DATA blocks no warning is emitted. -/
theorem c5_e006_raw_names_witness :
    (structuralCheck
        (Parse "DATA: UserRecord\n  name: string\n\nFUNCTION: load(id) → user_record\nRULES:\n  - load the record\nDONE_WHEN:\n  - record loaded\nEXAMPLES:\n  (1) → record\nERRORS:\n  - fail")
        (newLintResult "input")).warnings =
      [mkWarn "E006" "Return type \x27user_record\x27 may reference undefined DATA type"
        "FUNCTION load"] ∧
    (structuralCheck
        (Parse "FUNCTION: f(a) → Bar\nRULES:\n  - r\nDONE_WHEN:\n  - d\nEXAMPLES:\n  (1) → 2\nERRORS:\n  - e")
        (newLintResult "input")).warnings = [] := by
  constructor
  · have h := (c5_e006_raw_names
      (Parse "DATA: UserRecord\n  name: string\n\nFUNCTION: load(id) → user_record\nRULES:\n  - load the record\nDONE_WHEN:\n  - record loaded\nEXAMPLES:\n  (1) → record\nERRORS:\n  - fail")
      (newLintResult "input")).1 (by decide)
    exact h.trans (by decide)
  · exact ((c5_e006_raw_names
      (Parse "FUNCTION: f(a) → Bar\nRULES:\n  - r\nDONE_WHEN:\n  - d\nEXAMPLES:\n  (1) → 2\nERRORS:\n  - e")
      (newLintResult "input")).2 (by decide)).trans rfl

/-! ## Orphan function-scoped landmarks (C8) -/

/-- C8 evaluation at the failing input: a `RULES` landmark on line 10 with
no preceding `FUNCTION` is dropped from every block and produces a parse
warning — but the warning renders the line number as `string(rune(10+'0'))`,
the single character `:`, so the message does not contain the decimal line
number `10`. -/
theorem c8_line_number_bug :
    ((findLandmarks "\n\n\n\n\n\n\n\n\nRULES: x").map ScanMatch.line = [10]) ∧
    (Parse "\n\n\n\n\n\n\n\n\nRULES: x").parseWarnings =
      ["landmark RULES at line : appears outside FUNCTION block"] ∧
    ¬ substringOf "10" "landmark RULES at line : appears outside FUNCTION block" ∧
    (Parse "\n\n\n\n\n\n\n\n\nRULES: x").functions = [] ∧
    (Parse "\n\n\n\n\n\n\n\n\nRULES: x").dataBlocks = [] ∧
    (Parse "\n\n\n\n\n\n\n\n\nRULES: x").constraints = [] := by
  refine ⟨by decide, by decide, by decide, by decide, by decide, by decide⟩

/-! ## Scanner soundness (C1, C2) -/

theorem drop_length_takeWhile (p : Char → Bool) (l : List Char) :
    l.drop ((l.takeWhile p).length) = l.dropWhile p := by
  induction l with
  | nil => rfl
  | cons c t ih =>
    by_cases h : p c
    · simp [List.takeWhile_cons, List.dropWhile_cons, h, ih]
    · simp [List.takeWhile_cons, List.dropWhile_cons, h]

theorem matchLandmarkName_eq {s nm after : List Char}
    (h : matchLandmarkName s = some (nm, after)) :
    s = nm ++ ':' :: after ∧ 2 ≤ nm.length ∧ ∀ c ∈ nm, isNameChar c = true := by
  cases s with
  | nil => simp [matchLandmarkName] at h
  | cons c rest =>
    simp only [matchLandmarkName] at h
    by_cases hu : isUpperAZ c
    · rw [if_pos hu] at h
      by_cases hr : (rest.takeWhile isNameChar).length = 0
      · simp [hr] at h
      · rw [if_neg hr] at h
        cases hd : rest.drop ((rest.takeWhile isNameChar).length) with
        | nil => rw [hd] at h; simp at h
        | cons d dtail =>
          rw [hd] at h
          by_cases hc : d = ':'
          · subst hc
            simp only [Option.some.injEq, Prod.mk.injEq] at h
            obtain ⟨hnm, hafter⟩ := h
            subst hnm
            subst hafter
            refine ⟨?_, ?_, ?_⟩
            · have hsplit : rest.takeWhile isNameChar ++
                  rest.drop ((rest.takeWhile isNameChar).length) = rest := by
                rw [drop_length_takeWhile]
                exact List.takeWhile_append_dropWhile isNameChar rest
              have hrest : rest = rest.takeWhile isNameChar ++ ':' :: dtail := by
                conv_lhs => rw [← hsplit]
                rw [hd]
              rw [List.cons_append]
              exact congrArg (c :: ·) hrest
            · simp only [List.length_cons]
              omega
            · intro x hx
              rcases List.mem_cons.mp hx with rfl | hx
              · simp [isNameChar, hu]
              · exact List.mem_takeWhile_imp hx
          · have : (match (d :: dtail : List Char) with
                | ':' :: after => some (c :: rest.takeWhile isNameChar, after)
                | _ => (none : Option (List Char × List Char))) = none := by
              cases d
              simp_all
            rw [this] at h
            exact absurd h (by simp)
    · rw [if_neg hu] at h
      exact absurd h (by simp)

theorem findLandmarksAux_sound :
    ∀ (cs : List Char) (pos ln : Nat) (flag : Bool) (skip : Nat) (m : ScanMatch),
      m ∈ findLandmarksAux cs pos ln flag skip →
      ∃ s after, matchLandmarkName s = some (m.name, after) ∧
        (('\n' :: s) <:+ cs ∨ (s = cs ∧ flag = true ∧ skip = 0)) := by
  intro cs
  induction cs with
  | nil => intro pos ln flag skip m hm; simp [findLandmarksAux] at hm
  | cons c rest ih =>
    intro pos ln flag skip m hm
    have lift : ∀ s, ('\n' :: s) <:+ rest → ('\n' :: s) <:+ c :: rest :=
      fun s h => h.trans (List.suffix_cons c rest)
    have step : ∀ (pos' ln' : Nat) (flag' : Bool) (skip' : Nat),
        (flag' = true → c = '\n') →
        m ∈ findLandmarksAux rest pos' ln' flag' skip' →
        ∃ s after, matchLandmarkName s = some (m.name, after) ∧
          (('\n' :: s) <:+ c :: rest ∨ (s = c :: rest ∧ flag = true ∧ skip = 0)) := by
      intro pos' ln' flag' skip' hflag hrec
      obtain ⟨s, after, hmt, hloc⟩ := ih pos' ln' flag' skip' m hrec
      refine ⟨s, after, hmt, Or.inl ?_⟩
      rcases hloc with h | ⟨rfl, hc, _⟩
      · exact lift s h
      · have : c = '\n' := hflag hc
        subst this
        exact List.suffix_refl _
    cases skip with
    | succ k =>
      rw [findLandmarksAux] at hm
      exact step _ _ _ _ (fun h => by simpa using h) hm
    | zero =>
      rw [findLandmarksAux] at hm
      by_cases hf : flag
      · rw [if_pos hf] at hm
        cases hmn : matchLandmarkName (c :: rest) with
        | none =>
          rw [hmn] at hm
          exact step _ _ _ _ (fun h => by simpa using h) hm
        | some p =>
          obtain ⟨nm, after'⟩ := p
          rw [hmn] at hm
          simp only [List.mem_cons] at hm
          rcases hm with rfl | hm
          · exact ⟨c :: rest, after', hmn, Or.inr ⟨rfl, hf, rfl⟩⟩
          · exact step _ _ _ _ (fun h => by simp at h) hm
      · rw [if_neg hf] at hm
        exact step _ _ _ _ (fun h => by simpa using h) hm

theorem splitOn1_ne_nil (sep : Char) (cs : List Char) : splitOn1 sep cs ≠ [] := by
  cases cs with
  | nil => simp [splitOn1]
  | cons c rest =>
    rw [splitOn1]
    by_cases h : c = sep
    · simp [h]
    · rw [if_neg h]
      cases splitOn1 sep rest <;> simp

theorem splitOn1_head (cs : List Char) :
    ∃ t, splitOn1 '\n' cs = cs.takeWhile (fun ch => ch ≠ '\n') :: t := by
  induction cs with
  | nil => exact ⟨[], rfl⟩
  | cons c rest ih =>
    rw [splitOn1]
    by_cases h : c = '\n'
    · subst h
      refine ⟨splitOn1 '\n' rest, ?_⟩
      simp [List.takeWhile_cons]
    · rw [if_neg h]
      obtain ⟨t, ht⟩ := ih
      rw [ht]
      refine ⟨t, ?_⟩
      simp [List.takeWhile_cons, h]

theorem line_of_suffix {cs s : List Char} (h : ('\n' :: s) <:+ cs) :
    s.takeWhile (fun ch => ch ≠ '\n') ∈ (splitOn1 '\n' cs).tail := by
  induction cs generalizing s with
  | nil =>
    obtain ⟨t, ht⟩ := h
    simp at ht
  | cons c rest ih =>
    obtain ⟨t, ht⟩ := h
    cases t with
    | nil =>
      simp only [List.nil_append, List.cons.injEq] at ht
      obtain ⟨rfl, rfl⟩ := ht
      rw [splitOn1, if_pos rfl]
      obtain ⟨t', ht'⟩ := splitOn1_head s
      simp [ht']
    | cons a t' =>
      simp only [List.cons_append, List.cons.injEq] at ht
      obtain ⟨rfl, hrest⟩ := ht
      have hsuf : ('\n' :: s) <:+ rest := ⟨t', hrest⟩
      have hmem := ih hsuf
      rw [splitOn1]
      by_cases hc : a = '\n'
      · rw [if_pos hc]
        simpa using List.mem_of_mem_tail hmem
      · rw [if_neg hc]
        cases hsp : splitOn1 '\n' rest with
        | nil => exact absurd hsp (splitOn1_ne_nil '\n' rest)
        | cons h0 t0 =>
          rw [hsp] at hmem
          simpa using hmem

theorem takeWhile_append_all {p : Char → Bool} {xs : List Char} (ys : List Char)
    (h : ∀ x ∈ xs, p x = true) :
    (xs ++ ys).takeWhile p = xs ++ ys.takeWhile p := by
  induction xs with
  | nil => simp
  | cons x t ih =>
    rw [List.cons_append, List.takeWhile_cons, h x (by simp), ih (fun a ha => h a (by simp [ha]))]
    simp

theorem isNameChar_ne_nl {c : Char} (h : isNameChar c = true) : c ≠ '\n' := by
  intro h2
  subst h2
  exact absurd h (by decide)

/-- Every landmark the scanner records comes from a line of the text that
begins with the recorded name — an uppercase letter, one or more further
uppercase letters or underscores — immediately followed by a colon. -/
theorem findLandmarks_line (content : String) (m : ScanMatch)
    (hm : m ∈ findLandmarks content) :
    2 ≤ m.name.length ∧ (∀ c ∈ m.name, isNameChar c = true) ∧
      ∃ l ∈ goLines content, ∃ rem, l.data = m.name ++ ':' :: rem := by
  obtain ⟨s, after, hmt, hloc⟩ := findLandmarksAux_sound content.data 0 1 true 0 m hm
  obtain ⟨hs, hlen, hname⟩ := matchLandmarkName_eq hmt
  refine ⟨hlen, hname, ?_⟩
  have hfl : s.takeWhile (fun ch => ch ≠ '\n') =
      m.name ++ ':' :: after.takeWhile (fun ch => ch ≠ '\n') := by
    rw [hs]
    have h1 : (m.name ++ ':' :: after).takeWhile (fun ch => ch ≠ '\n') =
        m.name ++ (':' :: after).takeWhile (fun ch => ch ≠ '\n') :=
      takeWhile_append_all _ (fun x hx => by
        simp [isNameChar_ne_nl (hname x hx)])
    rw [h1, List.takeWhile_cons]
    simp
  have hmem : s.takeWhile (fun ch => ch ≠ '\n') ∈ splitOn1 '\n' content.data := by
    rcases hloc with h | ⟨rfl, _, _⟩
    · exact List.mem_of_mem_tail (line_of_suffix h)
    · obtain ⟨t, ht⟩ := splitOn1_head content.data
      rw [ht]
      simp
  refine ⟨⟨s.takeWhile (fun ch => ch ≠ '\n')⟩, ?_, after.takeWhile (fun ch => ch ≠ '\n'), hfl⟩
  unfold goLines
  exact List.mem_map_of_mem _ hmem

theorem extractLandmarks_name {text : List Char} :
    ∀ (ms : List ScanMatch) (lm : Landmark), lm ∈ extractLandmarksAux text ms →
      ∃ m ∈ ms, lm.name = (⟨m.name⟩ : String) := by
  intro ms
  induction ms with
  | nil => intro lm hlm; simp [extractLandmarksAux] at hlm
  | cons m rest ih =>
    intro lm hlm
    cases rest with
    | nil =>
      simp only [extractLandmarksAux, List.mem_singleton] at hlm
      exact ⟨m, by simp, by rw [hlm]⟩
    | cons m2 rest2 =>
      rw [extractLandmarksAux] at hlm
      rcases List.mem_cons.mp hlm with rfl | hlm
      · exact ⟨m, by simp, rfl⟩
      · obtain ⟨m', hm', hname⟩ := ih lm hlm
        exact ⟨m', by simp [hm'], hname⟩

theorem organize_no_function :
    ∀ (lms : List Landmark), (∀ lm ∈ lms, lm.name ≠ "FUNCTION") →
      ∀ sp : ParsedSpec, ((lms.foldl organizeStep (sp, false)).1).functions = sp.functions := by
  intro lms
  induction lms with
  | nil => intro _ sp; rfl
  | cons lm rest ih =>
    intro h sp
    rw [List.foldl_cons]
    have hne : lm.name ≠ "FUNCTION" := h lm (by simp)
    have hstep : ∃ sp' : ParsedSpec, organizeStep (sp, false) lm = (sp', false) ∧
        sp'.functions = sp.functions := by
      unfold organizeStep
      dsimp only
      rw [if_neg hne]
      split_ifs <;> first
        | exact ⟨_, rfl, rfl⟩
        | simp_all
    obtain ⟨sp', heq, hfn⟩ := hstep
    rw [heq, ih (fun x hx => h x (by simp [hx])) sp', hfn]

theorem parse_functions_nil {content : String}
    (h : ∀ m ∈ findLandmarks content, (⟨m.name⟩ : String) ≠ "FUNCTION") :
    (Parse content).functions = [] := by
  unfold Parse
  apply organize_no_function
  intro lm hlm
  obtain ⟨m, hm, hname⟩ := extractLandmarks_name (findLandmarks content) lm hlm
  rw [hname]
  exact h m hm

/-- C1.  On any text no line of which declares a `FUNCTION` landmark,
`Parse` yields an empty function list and a lint run produces exactly the
single error `E001` with `valid = false` (warnings may still be present). -/
theorem c1_no_function_single_e001 (cfg : ComplexityConfig) (name content : String)
    (h : ∀ l ∈ goLines content, goHasPrefix "FUNCTION:" l = false) :
    (Parse content).functions = [] ∧
    (lintWith cfg name content).errors =
      [mkErr "E001" "No FUNCTION block found" "spec"] ∧
    (lintWith cfg name content).valid = false := by
  have hfn : (Parse content).functions = [] := by
    apply parse_functions_nil
    intro m hm hname
    obtain ⟨_, _, l, hl, rem, hldata⟩ := findLandmarks_line content m hm
    have hpre : goHasPrefix "FUNCTION:" l = true := by
      unfold goHasPrefix
      have hmn : m.name = "FUNCTION".data := by
        have h2 := congrArg String.data hname
        simpa using h2
      rw [hldata, hmn]
      rw [List.isPrefixOf_iff_prefix]
      refine ⟨rem, ?_⟩
      have hsplit : ("FUNCTION:".data : List Char) = "FUNCTION".data ++ [':'] := by decide
      rw [hsplit, List.append_assoc]
      rfl
    rw [h l hl] at hpre
    exact absurd hpre (by simp)
  have herrs : lintErrors cfg (Parse content) =
      [mkErr "E001" "No FUNCTION block found" "spec"] := by
    unfold lintErrors structuralErrors complexityErrors evolutionErrors determinismErrors
    rw [hfn]
    simp
  refine ⟨hfn, ?_, ?_⟩
  · rw [lintWith_eq]
    exact herrs
  · rw [lintWith_eq]
    simp only
    rw [herrs]
    rfl

/-- Witness for C1 at Scenario B of the spec: `DATA: Foo` with a field
line and no `FUNCTION`. -/
theorem c1_no_function_single_e001_witness :
    (Parse "DATA: Foo\n  field: string").functions = [] ∧
    (LintString "DATA: Foo\n  field: string").errors =
      [mkErr "E001" "No FUNCTION block found" "spec"] ∧
    (LintString "DATA: Foo\n  field: string").valid = false :=
  c1_no_function_single_e001 defaultComplexityConfig "input" "DATA: Foo\n  field: string"
    (by decide)

/-! ## Line-based characterization of the scanner (C2) -/

theorem intercalNl_splitOn1 (cs : List Char) :
    intercalNl (splitOn1 '\n' cs) = cs := by
  induction cs with
  | nil => rfl
  | cons c rest ih =>
    rw [splitOn1]
    by_cases h : c = '\n'
    · rw [if_pos h]
      cases hsp : splitOn1 '\n' rest with
      | nil => exact absurd hsp (splitOn1_ne_nil '\n' rest)
      | cons h0 t0 =>
        rw [intercalNl, List.nil_append, h]
        rw [hsp] at ih
        rw [ih]
    · rw [if_neg h]
      cases hsp : splitOn1 '\n' rest with
      | nil => exact absurd hsp (splitOn1_ne_nil '\n' rest)
      | cons h0 t0 =>
        rw [hsp] at ih
        cases t0 with
        | nil =>
          rw [intercalNl]
          rw [intercalNl] at ih
          rw [ih]
        | cons t1 t2 =>
          rw [intercalNl, List.cons_append]
          rw [intercalNl] at ih
          rw [ih]

theorem splitOn1_no_sep (sep : Char) (cs : List Char) :
    ∀ l ∈ splitOn1 sep cs, sep ∉ l := by
  induction cs with
  | nil => intro l hl; simp [splitOn1] at hl; simp [hl]
  | cons c rest ih =>
    intro l hl
    rw [splitOn1] at hl
    by_cases h : c = sep
    · rw [if_pos h] at hl
      rcases List.mem_cons.mp hl with rfl | hl
      · simp
      · exact ih l hl
    · rw [if_neg h] at hl
      cases hsp : splitOn1 sep rest with
      | nil => exact absurd hsp (splitOn1_ne_nil sep rest)
      | cons h0 t0 =>
        rw [hsp] at hl
        rcases List.mem_cons.mp hl with rfl | hl
        · intro hmem
          rcases List.mem_cons.mp hmem with rfl | hmem
          · exact h rfl
          · exact ih h0 (by rw [hsp]; simp) hmem
        · exact ih l (by rw [hsp]; simp [hl])

theorem takeWhile_append_sep (p : Char → Bool) (hp : p '\n' = false) :
    ∀ (t r : List Char), (t ++ '\n' :: r).takeWhile p = t.takeWhile p := by
  intro t r
  induction t with
  | nil => simp [List.takeWhile_cons, hp]
  | cons a t' ih =>
    rw [List.cons_append, List.takeWhile_cons, List.takeWhile_cons]
    by_cases h : p a
    · rw [h]
      simp [ih]
    · simp [h]

theorem matchLandmarkName_append {l : List Char} (hnl : '\n' ∉ l) (r : List Char) :
    matchLandmarkName (l ++ '\n' :: r) =
      (matchLandmarkName l).map (fun p => (p.1, p.2 ++ '\n' :: r)) := by
  cases l with
  | nil => simp [matchLandmarkName, isUpperAZ]
  | cons c t =>
    rw [List.cons_append]
    simp only [matchLandmarkName]
    by_cases hu : isUpperAZ c
    · rw [if_pos hu, if_pos hu]
      have htw : (t ++ '\n' :: r).takeWhile isNameChar = t.takeWhile isNameChar :=
        takeWhile_append_sep isNameChar (by decide) t r
      rw [htw]
      by_cases hlen : (t.takeWhile isNameChar).length = 0
      · rw [if_pos hlen, if_pos hlen]
        rfl
      · rw [if_neg hlen, if_neg hlen]
        have hle : (t.takeWhile isNameChar).length ≤ t.length :=
          (List.takeWhile_prefix isNameChar).length_le
        rw [List.drop_append_of_le_length hle]
        cases hd : t.drop ((t.takeWhile isNameChar).length) with
        | nil => rfl
        | cons d dt =>
          rw [List.cons_append]
          by_cases hc : d = ':'
          · subst hc
            rfl
          · cases d
            simp_all
    · rw [if_neg hu, if_neg hu]
      rfl

theorem findLandmarksAux_false_nil {l : List Char} (hnl : '\n' ∉ l) :
    ∀ (pos ln : Nat), findLandmarksAux l pos ln false 0 = [] := by
  induction l with
  | nil => intro pos ln; rfl
  | cons c t ih =>
    intro pos ln
    rw [findLandmarksAux]
    have hc : c ≠ '\n' := fun h => hnl (by simp [h])
    simp only [if_neg hc, Bool.false_eq_true, if_false, decide_eq_true_eq]
    have : (decide (c = '\n')) = false := by simp [hc]
    rw [this]
    exact ih (fun h => hnl (by simp [h])) (pos + 1) ln

theorem findLandmarksAux_true_nil {l : List Char} (hnl : '\n' ∉ l)
    (hno : matchLandmarkName l = none) (pos ln : Nat) :
    findLandmarksAux l pos ln true 0 = [] := by
  cases l with
  | nil => rfl
  | cons c t =>
    rw [findLandmarksAux]
    simp only [if_pos rfl, hno]
    have hc : c ≠ '\n' := fun h => hnl (by simp [h])
    have hdec : (decide (c = '\n')) = false := by simp [hc]
    rw [hdec]
    exact findLandmarksAux_false_nil (fun h => hnl (by simp [h])) (pos + 1) _

theorem findLandmarksAux_skip_line {l : List Char} (hnl : '\n' ∉ l) :
    ∀ (rest : List Char) (pos ln : Nat) (flag : Bool),
      (flag = true → matchLandmarkName (l ++ '\n' :: rest) = none) →
      findLandmarksAux (l ++ '\n' :: rest) pos ln flag 0 =
        findLandmarksAux rest (pos + l.length + 1) (ln + 1) true 0 := by
  induction l with
  | nil =>
    intro rest pos ln flag _
    rw [List.nil_append, findLandmarksAux]
    have hno : matchLandmarkName ('\n' :: rest) = none := by
      simp [matchLandmarkName, isUpperAZ]
    cases flag <;> simp [hno]
  | cons c t ih =>
    intro rest pos ln flag hflag
    rw [List.cons_append, findLandmarksAux]
    have hc : c ≠ '\n' := fun h => hnl (by simp [h])
    have hdec : (decide (c = '\n')) = false := by simp [hc]
    have hstep : findLandmarksAux (t ++ '\n' :: rest) (pos + 1) (ln + if c = '\n' then 1 else 0)
        (decide (c = '\n')) 0 =
        findLandmarksAux rest (pos + 1 + t.length + 1) (ln + 1) true 0 := by
      rw [hdec, if_neg hc, Nat.add_zero]
      exact ih (fun h => hnl (by simp [h])) rest (pos + 1) ln false (by simp)
    have harith : pos + 1 + t.length + 1 = pos + (c :: t).length + 1 := by
      simp only [List.length_cons]
      omega
    cases hf : flag
    · simp only [Bool.false_eq_true, if_false]
      rw [hstep, harith]
    · rw [if_pos rfl]
      have hno := hflag hf
      rw [List.cons_append] at hno
      rw [hno]
      rw [hstep, harith]

theorem findLandmarksAux_skip_all :
    ∀ (cs : List Char) (pos ln : Nat) (flag : Bool) (k : Nat), cs.length ≤ k →
      findLandmarksAux cs pos ln flag k = [] := by
  intro cs
  induction cs with
  | nil => intro pos ln flag k _; rfl
  | cons c t ih =>
    intro pos ln flag k hk
    cases k with
    | zero => simp at hk
    | succ k' =>
      rw [findLandmarksAux]
      exact ih (pos + 1) _ _ k' (by simpa using hk)

theorem findLandmarksAux_skip_walk {xs : List Char} (hnl : '\n' ∉ xs) :
    ∀ (cs : List Char) (pos ln : Nat),
      findLandmarksAux (xs ++ cs) pos ln false xs.length =
        findLandmarksAux cs (pos + xs.length) ln false 0 := by
  induction xs with
  | nil => intro cs pos ln; simp
  | cons x t ih =>
    intro cs pos ln
    rw [List.cons_append, List.length_cons, findLandmarksAux]
    have hx : x ≠ '\n' := fun h => hnl (by simp [h])
    have hdec : (decide (x = '\n')) = false := by simp [hx]
    simp only [hdec, if_neg hx, Nat.add_zero]
    rw [ih (fun h => hnl (by simp [h])) cs (pos + 1) ln]
    have harith : pos + 1 + t.length = pos + (t.length + 1) := by omega
    rw [harith]

theorem takeWhile_append_stop {p : Char → Bool} :
    ∀ {l₁ : List Char} (l₂ : List Char), (∃ c ∈ l₁, p c = false) →
      (l₁ ++ l₂).takeWhile p = l₁.takeWhile p := by
  intro l₁
  induction l₁ with
  | nil => intro l₂ h; simp at h
  | cons a t ih =>
    intro l₂ h
    rw [List.cons_append, List.takeWhile_cons, List.takeWhile_cons]
    by_cases hp : p a
    · rw [hp]
      obtain ⟨c, hc, hcp⟩ := h
      rcases List.mem_cons.mp hc with rfl | hc
      · rw [hp] at hcp; simp at hcp
      · simp only []
        rw [ih l₂ ⟨c, hc, hcp⟩]
    · simp [hp]

theorem dropWhile_dropWhile {p q : Char → Bool} (himp : ∀ c, p c = true → q c = true) :
    ∀ l : List Char, (l.dropWhile p).dropWhile q = l.dropWhile q := by
  intro l
  induction l with
  | nil => rfl
  | cons a t ih =>
    rw [List.dropWhile_cons]
    by_cases hp : p a
    · rw [if_pos hp, ih, List.dropWhile_cons, if_pos (himp a hp)]
    · rw [if_neg hp]

theorem regexSpace_isSpace {c : Char} (h : goRegexSpace c = true) : goIsSpace c = true := by
  simp only [goRegexSpace, Bool.or_eq_true, decide_eq_true_eq] at h
  rcases h with ((h | h) | h) | h <;> simp [goIsSpace, h]

theorem goTrimL_dropWhile_regexSpace (l : List Char) :
    goTrimL (l.dropWhile goRegexSpace) = goTrimL l := by
  unfold goTrimL
  rw [dropWhile_dropWhile (fun c => regexSpace_isSpace) l]

theorem takeWhile_ne_nl {xs : List Char} (h : '\n' ∉ xs) :
    xs.takeWhile (fun ch => ch ≠ '\n') = xs := by
  induction xs with
  | nil => rfl
  | cons a t ih =>
    have ha : a ≠ '\n' := fun hh => h (by simp [hh])
    have ht := ih (fun hh => h (by simp [hh]))
    have hpa : (decide (a ≠ '\n')) = true := by simp [ha]
    rw [List.takeWhile_cons, if_pos hpa, ht]

theorem findLandmarksAux_newline (cs : List Char) (pos ln : Nat) :
    findLandmarksAux ('\n' :: cs) pos ln false 0 =
      findLandmarksAux cs (pos + 1) (ln + 1) true 0 := by
  rw [findLandmarksAux]
  simp

theorem length_takeWhile_add_dropWhile (p : Char → Bool) (l : List Char) :
    (l.takeWhile p).length + (l.dropWhile p).length = l.length := by
  conv_rhs => rw [← List.takeWhile_append_dropWhile (p := p) (l := l)]
  rw [List.length_append]


theorem matchLandmarkName_append_any {l nm rem : List Char}
    (hm : matchLandmarkName l = some (nm, rem)) (tail : List Char) :
    matchLandmarkName (l ++ tail) = some (nm, rem ++ tail) := by
  cases l with
  | nil => simp [matchLandmarkName] at hm
  | cons c t =>
    simp only [matchLandmarkName] at hm
    by_cases hu : isUpperAZ c
    · rw [if_pos hu] at hm
      by_cases hlen : (t.takeWhile isNameChar).length = 0
      · simp [hlen] at hm
      · rw [if_neg hlen] at hm
        cases hd : t.drop ((t.takeWhile isNameChar).length) with
        | nil => rw [hd] at hm; simp at hm
        | cons d dt =>
          rw [hd] at hm
          by_cases hc : d = ':'
          · subst hc
            simp only [Option.some.injEq, Prod.mk.injEq] at hm
            obtain ⟨hnm, hrem⟩ := hm
            have ht : t = t.takeWhile isNameChar ++ ':' :: dt := by
              conv_lhs => rw [← List.takeWhile_append_dropWhile (p := isNameChar) (l := t)]
              rw [← drop_length_takeWhile isNameChar t, hd]
            rw [List.cons_append]
            simp only [matchLandmarkName]
            rw [if_pos hu]
            have hstop : (t ++ tail).takeWhile isNameChar = t.takeWhile isNameChar := by
              refine takeWhile_append_stop tail ⟨':', ?_, by decide⟩
              rw [ht]; simp
            rw [hstop, if_neg hlen]
            have hle : (t.takeWhile isNameChar).length ≤ t.length :=
              (List.takeWhile_prefix isNameChar).length_le
            rw [List.drop_append_of_le_length hle, hd, List.cons_append]
            subst hnm
            subst hrem
            rfl
          · cases d
            simp_all
    · rw [if_neg hu] at hm
      exact absurd hm (by simp)

theorem findLandmarksAux_match_line {l nm rem : List Char} (hnl : '\n' ∉ l)
    (hm : matchLandmarkName l = some (nm, rem))
    (hok : ∃ c ∈ rem, goRegexSpace c = false)
    (tail : List Char) (htail : tail = [] ∨ ∃ cs, tail = '\n' :: cs)
    (pos ln : Nat) :
    findLandmarksAux (l ++ tail) pos ln true 0 =
      { name := nm, group := rem.dropWhile goRegexSpace, start := pos,
        stop := pos + l.length, line := ln } ::
        findLandmarksAux (l.tail ++ tail) (pos + 1) ln false (l.length - 1) := by
  cases l with
  | nil => simp [matchLandmarkName] at hm
  | cons c t =>
    have hma : matchLandmarkName (c :: (t ++ tail)) = some (nm, rem ++ tail) := by
      rw [← List.cons_append]
      exact matchLandmarkName_append_any hm tail
    rw [List.cons_append, findLandmarksAux, hma]
    obtain ⟨hdecomp, hlen2, hname⟩ := matchLandmarkName_eq hm
    have hnlrem : '\n' ∉ rem := by
      intro hmem
      exact hnl (by rw [hdecomp]; simp [hmem])
    have hw : (rem ++ tail).takeWhile goRegexSpace = rem.takeWhile goRegexSpace :=
      takeWhile_append_stop tail hok
    have hwle : (rem.takeWhile goRegexSpace).length ≤ rem.length :=
      (List.takeWhile_prefix goRegexSpace).length_le
    have hdropapp : (rem ++ tail).drop ((rem.takeWhile goRegexSpace).length) =
        rem.dropWhile goRegexSpace ++ tail := by
      rw [List.drop_append_of_le_length hwle, drop_length_takeWhile]
    have hnldw : '\n' ∉ rem.dropWhile goRegexSpace := fun hmem =>
      hnlrem ((List.dropWhile_sublist goRegexSpace).subset hmem)
    have hr : (rem.dropWhile goRegexSpace ++ tail).takeWhile (fun ch => ch ≠ '\n') =
        rem.dropWhile goRegexSpace := by
      rcases htail with rfl | ⟨cs, rfl⟩
      · rw [List.append_nil]
        exact takeWhile_ne_nl hnldw
      · rw [takeWhile_append_sep _ (by decide)]
        exact takeWhile_ne_nl hnldw
    have hconsumed : nm.length + 1 + (rem.takeWhile goRegexSpace).length +
        (rem.dropWhile goRegexSpace).length = (c :: t).length := by
      have := length_takeWhile_add_dropWhile goRegexSpace rem
      have hl : (c :: t).length = nm.length + 1 + rem.length := by
        rw [hdecomp]
        simp only [List.length_append, List.length_cons]
        omega
      omega
    simp only [hw, hdropapp, hr, hconsumed]
    rfl

theorem findLandmarksAux_lines :
    ∀ (ls : List (List Char)) (pos ln : Nat),
      (∀ l ∈ ls, '\n' ∉ l) →
      (∀ l ∈ ls, lineRemainderOk l = true) →
      (findLandmarksAux (intercalNl ls) pos ln true 0).map
          (fun m => (m.name, goTrimL m.group, m.line)) =
        refScanLines ls ln := by
  intro ls
  induction ls with
  | nil => intro pos ln _ _; rfl
  | cons l ls ih =>
    intro pos ln hnl hok
    have hnll : '\n' ∉ l := hnl l (by simp)
    cases hml : matchLandmarkName l with
    | none =>
      cases ls with
      | nil =>
        rw [intercalNl, findLandmarksAux_true_nil hnll hml, refScanLines, hml]
        rfl
      | cons l2 ls2 =>
        have hnone : matchLandmarkName (l ++ '\n' :: intercalNl (l2 :: ls2)) = none := by
          rw [matchLandmarkName_append hnll, hml]
          rfl
        rw [intercalNl, findLandmarksAux_skip_line hnll _ pos ln true (fun _ => hnone)]
        rw [refScanLines, hml]
        exact ih (pos + l.length + 1) (ln + 1)
          (fun x hx => hnl x (by simp [hx])) (fun x hx => hok x (by simp [hx]))
    | some nmrem =>
      obtain ⟨nm, rem⟩ := nmrem
      have hokl : ∃ c ∈ rem, goRegexSpace c = false := by
        have hlr := hok l (by simp)
        rw [lineRemainderOk, hml] at hlr
        simpa using hlr
      cases l with
      | nil => simp [matchLandmarkName] at hml
      | cons c t =>
        have hnlt : '\n' ∉ t := fun hmem => hnll (by simp [hmem])
        cases ls with
        | nil =>
          have hrw : intercalNl [c :: t] = (c :: t) ++ [] := by
            rw [intercalNl, List.append_nil]
          rw [hrw, findLandmarksAux_match_line hnll hml hokl [] (Or.inl rfl) pos ln]
          have hskip : findLandmarksAux ((c :: t).tail ++ []) (pos + 1) ln false
              ((c :: t).length - 1) = [] := by
            simp only [List.tail_cons, List.append_nil, List.length_cons,
              Nat.add_sub_cancel]
            exact findLandmarksAux_skip_all t (pos + 1) ln false t.length le_rfl
          rw [hskip, refScanLines, hml, refScanLines]
          simp [goTrimL_dropWhile_regexSpace]
        | cons l2 ls2 =>
          rw [intercalNl, findLandmarksAux_match_line hnll hml hokl
            ('\n' :: intercalNl (l2 :: ls2)) (Or.inr ⟨_, rfl⟩) pos ln]
          have hcont : findLandmarksAux ((c :: t).tail ++ '\n' :: intercalNl (l2 :: ls2))
              (pos + 1) ln false ((c :: t).length - 1) =
              findLandmarksAux (intercalNl (l2 :: ls2)) (pos + 1 + t.length + 1)
                (ln + 1) true 0 := by
            simp only [List.tail_cons, List.length_cons, Nat.add_sub_cancel]
            rw [findLandmarksAux_skip_walk hnlt, findLandmarksAux_newline]
          rw [hcont, refScanLines, hml]
          rw [List.map_cons]
          have hrest := ih (pos + 1 + t.length + 1) (ln + 1)
            (fun x hx => hnl x (by simp [hx])) (fun x hx => hok x (by simp [hx]))
          rw [hrest]
          simp [goTrimL_dropWhile_regexSpace]

/-- C2: partly as claimed, partly corrected.  Anchoring holds: every match
the scanner records comes from a line of the text that begins with the
recorded name followed by a colon, so a mid-line candidate is never
recorded — but the name needs at least TWO uppercase letters or
underscores starting with an uppercase letter, not "one or more".  The
line-by-line reading (one record per matching line, with the trimmed
same-line remainder and the 1-based line number, in document order) holds
only when every declared landmark has a non-blank same-line remainder:
the pattern's greedy whitespace run crosses newlines, so a landmark line
with a blank remainder swallows the following line. -/
theorem c2_scanner (content : String) :
    (∀ m ∈ findLandmarks content,
        2 ≤ m.name.length ∧ (∀ c ∈ m.name, isNameChar c = true) ∧
          ∃ l ∈ goLines content, ∃ rem, l.data = m.name ++ ':' :: rem) ∧
    ((∀ l ∈ splitOn1 '\n' content.data, lineRemainderOk l = true) →
      (findLandmarks content).map (fun m => (m.name, goTrimL m.group, m.line)) =
        refScanLines (splitOn1 '\n' content.data) 1) := by
  constructor
  · exact fun m hm => findLandmarks_line content m hm
  · intro hok
    have hnl : ∀ l ∈ splitOn1 '\n' content.data, '\n' ∉ l :=
      splitOn1_no_sep '\n' content.data
    have hmain := findLandmarksAux_lines (splitOn1 '\n' content.data) 0 1 hnl hok
    rw [intercalNl_splitOn1] at hmain
    exact hmain

set_option maxRecDepth 40000 in
/-- C2 counterexample: the text has three lines, each beginning at line
start with uppercase letters immediately followed by a colon ("A: x",
"AB:", "CD: y"), yet the scanner records exactly one landmark: line 1 is
skipped because the name group needs at least two characters, and line 3
is swallowed into the match of line 2 (whose remainder is blank, so the
greedy whitespace run crosses the newline), recorded with name "AB",
remainder "CD: y" and line number 2. -/
theorem c2_counterexample :
    splitOn1 '\n' "A: x\nAB:\nCD: y".data =
      ["A: x".data, "AB:".data, "CD: y".data] ∧
    (findLandmarks "A: x\nAB:\nCD: y").map
        (fun m => ((⟨m.name⟩ : String), (⟨goTrimL m.group⟩ : String), m.line)) =
      [("AB", "CD: y", 2)] ∧
    (∀ m ∈ findLandmarks "A: x\nAB:\nCD: y", m.line ≠ 1 ∧ m.line ≠ 3) := by
  refine ⟨by decide, by decide, by decide⟩

set_option maxRecDepth 40000 in
theorem c2_scanner_witness :
    (∀ l ∈ splitOn1 '\n' "FUNCTION: add(a, b) -> sum\nRULES: sum is a plus b".data,
        lineRemainderOk l = true) ∧
    (findLandmarks "FUNCTION: add(a, b) -> sum\nRULES: sum is a plus b").map
        (fun m => (m.name, goTrimL m.group, m.line)) =
      refScanLines
        (splitOn1 '\n' "FUNCTION: add(a, b) -> sum\nRULES: sum is a plus b".data) 1 :=
  ⟨by decide,
    (c2_scanner "FUNCTION: add(a, b) -> sum\nRULES: sum is a plus b").2 (by decide)⟩
